import Mathlib

/-!
Verification of the ES6 downleveling transform in
`src/compiler/transforms/es6.ts` (namespace `ts.transform`).

The syntax tree is embedded shallowly: tree nodes become an inductive type,
the Tree Builder factory functions (`createAssignmentExpression`,
`createCallExpression2`, ...) become constructor applications, and the
Resolver's answers (`getConstantValue`, `getNodeCheckFlags`, ...) become data
carried on the nodes they describe.  The file-level mutable scope context
(`currentBaseTypeNode`, `currentConstructor`,
`currentParametersWithPropertyAssignments`,
`currentInstancePropertyAssignments`, `currentEnumLocalName`) becomes an
explicit `TransformState` record threaded through the functions that read or
write it.  Recursive descent through `transformNode` is abstracted as a
`Lowerer` record of visitor functions, so each lowering rule is stated and
proved relative to an arbitrary lowering of its children, exactly as the
source delegates to `visitNode` / `visitNodes` / `emitNodes` / `pipeNodes`.
-/

namespace TS

/-- Binary operator token kinds (`operatorToken.kind` of a TypeScript
`BinaryExpression`).  Assignments are binary expressions in the tree, so
`createAssignmentExpression` and `createLogicalOrExpression` build
`binaryExpr` nodes. -/
inductive BinOp where
  | assign
  | plusAssign
  | barBar
  | ampAmp
  | plus
  | minus
  | lt
  | eqEqEq
  | comma
deriving Repr, DecidableEq

/-- Bit for the `export` modifier (`NodeFlags.Export`). -/
def NodeFlags.Export : Nat := 1

/-- Bit for ambient (`declare`) declarations (`NodeFlags.Ambient`). -/
def NodeFlags.Ambient : Nat := 2

/-- Bit for the `public` accessibility modifier. -/
def NodeFlags.Public : Nat := 4

/-- Bit for the `private` accessibility modifier. -/
def NodeFlags.Private : Nat := 8

/-- Bit for the `protected` accessibility modifier. -/
def NodeFlags.Protected : Nat := 16

/-- Bit for the `static` modifier (`NodeFlags.Static`). -/
def NodeFlags.Static : Nat := 32

/-- Bit for the `abstract` modifier (`NodeFlags.Abstract`). -/
def NodeFlags.Abstract : Nat := 64

/-- Bit for the `default` modifier (`NodeFlags.Default`). -/
def NodeFlags.Default : Nat := 128

/-- Bit for `const` declarations (`NodeFlags.Const`). -/
def NodeFlags.Const : Nat := 256

/-- Marker flag for the synthesized rest parameter (`NodeFlags.GeneratedRest`). -/
def NodeFlags.GeneratedRest : Nat := 512

/-- Marker flag for the synthesized super call (`NodeFlags.GeneratedSuper`). -/
def NodeFlags.GeneratedSuper : Nat := 1024

/-- Marker flag for the synthesized namespace call (`NodeFlags.GeneratedNamespace`). -/
def NodeFlags.GeneratedNamespace : Nat := 2048

/-- Mask of the accessibility modifiers (`NodeFlags.AccessibilityModifier`). -/
def NodeFlags.AccessibilityModifier : Nat :=
  NodeFlags.Public ||| NodeFlags.Private ||| NodeFlags.Protected

/-- Transform-need flag: this node itself requires rewriting for ES6
(`TransformFlags.ThisNodeNeedsTransformToES6`). -/
def TransformFlags.ThisNodeNeedsTransformToES6 : Nat := 1

/-- Transform-need flag: some descendant requires rewriting for ES6
(`TransformFlags.SubtreeNeedsTransformToES6`). -/
def TransformFlags.SubtreeNeedsTransformToES6 : Nat := 2

/-- Syntax tree nodes.  One constructor per `SyntaxKind` the claims touch;
each constructor carries the fields the source reads (`flags`, `decorators`,
`name`, `initializer`, ...).  Resolver answers are carried as data:
`enumMember.constantValue` models `resolver.getConstantValue`,
`moduleDecl.instantiated` models `isInstantiatedModule`, and
`moduleDecl.mergesWithClassFlag` models the
`NodeCheckFlags.LexicalModuleMergesWithClass` check flag. -/
inductive Node where
  | ident (text : String)
  | strLit (text : String)
  | numLit (value : Int)
  | thisKw
  | superKw
  | voidZeroExpr
  | objectLit (props : List Node)
  | arrayLit (elems : List Node)
  | propAccess (obj : Node) (name : Node)
  | elemAccess (obj : Node) (index : Node)
  | binaryExpr (op : BinOp) (left : Node) (right : Node)
  | conditionalExpr (cond : Node) (whenTrue : Node) (whenFalse : Node)
  | callExpr (callee : Node) (args : List Node)
  | spreadElem (e : Node)
  | parenExpr (e : Node)
  | yieldExpr (e : Node)
  | awaitExpr (e : Node)
  | funcExpr (params : List Node) (body : Node)
  | arrowFunc (params : List Node) (body : Node)
  | classExpr (base : Option Node) (members : List Node)
  | exprStmt (flags : Nat) (e : Node)
  | blockStmt (stmts : List Node)
  | varStmt (flags : Nat) (decls : List Node)
  | varDecl (name : Node) (init : Option Node) (flags : Nat)
  | classDecl (flags : Nat) (decorators : List Node) (name : Node)
      (heritage : List Node) (members : List Node)
  | heritageClause (isExtends : Bool) (types : List Node)
  | exprWithTypeArgs (expr : Node) (hasTypeArguments : Bool)
  | moduleDecl (flags : Nat) (name : Node) (body : Node)
      (instantiated : Bool) (mergesWithClassFlag : Bool)
  | moduleBlock (stmts : List Node)
  | enumDecl (flags : Nat) (name : Node) (members : List Node)
  | enumMember (name : Node) (initializer : Option Node) (constantValue : Option Int)
  | ctorDecl (params : List Node) (body : Option Node)
  | methodDecl (flags : Nat) (decorators : List Node) (name : Node)
      (params : List Node) (body : Option Node)
  | getAccessorDecl (flags : Nat) (decorators : List Node) (name : Node)
      (params : List Node) (body : Option Node)
  | setAccessorDecl (flags : Nat) (decorators : List Node) (name : Node)
      (params : List Node) (body : Option Node)
  | propertyDecl (flags : Nat) (decorators : List Node) (name : Node)
      (initializer : Option Node)
  | paramDecl (flags : Nat) (decorators : List Node) (name : Node)
      (init : Option Node) (dotDotDot : Bool)
  | decoratorNode (expr : Node)
  | computedName (e : Node)
  | objectBindingPattern (elements : List Node)
  | arrayBindingPattern (elements : List Node)
deriving Repr

mutual

/-- Structural equality of nodes, standing in for the reference identity
checks of the source (`parentNode.condition === node`,
`member !== accessors.firstAccessor`). -/
def Node.beq : Node → Node → Bool
  | .ident a, b => match b with | .ident c => a == c | _ => false
  | .strLit a, b => match b with | .strLit c => a == c | _ => false
  | .numLit a, b => match b with | .numLit c => a == c | _ => false
  | .thisKw, b => match b with | .thisKw => true | _ => false
  | .superKw, b => match b with | .superKw => true | _ => false
  | .voidZeroExpr, b => match b with | .voidZeroExpr => true | _ => false
  | .objectLit a, b => match b with | .objectLit c => Node.beqList a c | _ => false
  | .arrayLit a, b => match b with | .arrayLit c => Node.beqList a c | _ => false
  | .propAccess a1 a2, b =>
      match b with
      | .propAccess b1 b2 => Node.beq a1 b1 && Node.beq a2 b2
      | _ => false
  | .elemAccess a1 a2, b =>
      match b with
      | .elemAccess b1 b2 => Node.beq a1 b1 && Node.beq a2 b2
      | _ => false
  | .binaryExpr o1 a1 a2, b =>
      match b with
      | .binaryExpr o2 b1 b2 => o1 == o2 && Node.beq a1 b1 && Node.beq a2 b2
      | _ => false
  | .conditionalExpr a1 a2 a3, b =>
      match b with
      | .conditionalExpr b1 b2 b3 =>
          Node.beq a1 b1 && Node.beq a2 b2 && Node.beq a3 b3
      | _ => false
  | .callExpr a as, b =>
      match b with
      | .callExpr c cs => Node.beq a c && Node.beqList as cs
      | _ => false
  | .spreadElem a, b => match b with | .spreadElem c => Node.beq a c | _ => false
  | .parenExpr a, b => match b with | .parenExpr c => Node.beq a c | _ => false
  | .yieldExpr a, b => match b with | .yieldExpr c => Node.beq a c | _ => false
  | .awaitExpr a, b => match b with | .awaitExpr c => Node.beq a c | _ => false
  | .funcExpr as a, b =>
      match b with
      | .funcExpr cs c => Node.beqList as cs && Node.beq a c
      | _ => false
  | .arrowFunc as a, b =>
      match b with
      | .arrowFunc cs c => Node.beqList as cs && Node.beq a c
      | _ => false
  | .classExpr a as, b =>
      match b with
      | .classExpr c cs => Node.beqOpt a c && Node.beqList as cs
      | _ => false
  | .exprStmt f a, b =>
      match b with
      | .exprStmt g c => f == g && Node.beq a c
      | _ => false
  | .blockStmt as, b => match b with | .blockStmt cs => Node.beqList as cs | _ => false
  | .varStmt f as, b =>
      match b with
      | .varStmt g cs => f == g && Node.beqList as cs
      | _ => false
  | .varDecl a i f, b =>
      match b with
      | .varDecl c j g => Node.beq a c && Node.beqOpt i j && f == g
      | _ => false
  | .classDecl f ds a hs ms, b =>
      match b with
      | .classDecl g es c is ns =>
          f == g && Node.beqList ds es && Node.beq a c && Node.beqList hs is &&
            Node.beqList ms ns
      | _ => false
  | .heritageClause x as, b =>
      match b with
      | .heritageClause y cs => x == y && Node.beqList as cs
      | _ => false
  | .exprWithTypeArgs a x, b =>
      match b with
      | .exprWithTypeArgs c y => Node.beq a c && x == y
      | _ => false
  | .moduleDecl f a bd x y, b =>
      match b with
      | .moduleDecl g c be z w =>
          f == g && Node.beq a c && Node.beq bd be && x == z && y == w
      | _ => false
  | .moduleBlock as, b =>
      match b with | .moduleBlock cs => Node.beqList as cs | _ => false
  | .enumDecl f a ms, b =>
      match b with
      | .enumDecl g c ns => f == g && Node.beq a c && Node.beqList ms ns
      | _ => false
  | .enumMember a i v, b =>
      match b with
      | .enumMember c j w => Node.beq a c && Node.beqOpt i j && v == w
      | _ => false
  | .ctorDecl as bd, b =>
      match b with
      | .ctorDecl cs be => Node.beqList as cs && Node.beqOpt bd be
      | _ => false
  | .methodDecl f ds a ps bd, b =>
      match b with
      | .methodDecl g es c qs be =>
          f == g && Node.beqList ds es && Node.beq a c && Node.beqList ps qs &&
            Node.beqOpt bd be
      | _ => false
  | .getAccessorDecl f ds a ps bd, b =>
      match b with
      | .getAccessorDecl g es c qs be =>
          f == g && Node.beqList ds es && Node.beq a c && Node.beqList ps qs &&
            Node.beqOpt bd be
      | _ => false
  | .setAccessorDecl f ds a ps bd, b =>
      match b with
      | .setAccessorDecl g es c qs be =>
          f == g && Node.beqList ds es && Node.beq a c && Node.beqList ps qs &&
            Node.beqOpt bd be
      | _ => false
  | .propertyDecl f ds a i, b =>
      match b with
      | .propertyDecl g es c j =>
          f == g && Node.beqList ds es && Node.beq a c && Node.beqOpt i j
      | _ => false
  | .paramDecl f ds a i x, b =>
      match b with
      | .paramDecl g es c j y =>
          f == g && Node.beqList ds es && Node.beq a c && Node.beqOpt i j && x == y
      | _ => false
  | .decoratorNode a, b =>
      match b with | .decoratorNode c => Node.beq a c | _ => false
  | .computedName a, b =>
      match b with | .computedName c => Node.beq a c | _ => false
  | .objectBindingPattern as, b =>
      match b with | .objectBindingPattern cs => Node.beqList as cs | _ => false
  | .arrayBindingPattern as, b =>
      match b with | .arrayBindingPattern cs => Node.beqList as cs | _ => false

/-- Elementwise `Node.beq` on lists. -/
def Node.beqList : List Node → List Node → Bool
  | [], l => match l with | [] => true | _ => false
  | x :: xs, l =>
      match l with
      | y :: ys => Node.beq x y && Node.beqList xs ys
      | _ => false

/-- `Node.beq` lifted to optional nodes. -/
def Node.beqOpt : Option Node → Option Node → Bool
  | none, o => match o with | none => true | _ => false
  | some x, o => match o with | some y => Node.beq x y | _ => false

end



/-- The file-level mutable scope context of `es6.ts` (lines 7-10 and 849),
threaded explicitly.  Fields start out `none`, matching the `let`
declarations that are never initialized. -/
structure TransformState where
  currentBaseTypeNode : Option Node
  currentConstructor : Option Node
  currentParametersWithPropertyAssignments : Option (List Node)
  currentInstancePropertyAssignments : Option (List Node)
  currentEnumLocalName : Option Node
deriving Repr

/-- The state at entry of `toES6`: every scope-context variable is still
`undefined`. -/
def TransformState.initial : TransformState :=
  { currentBaseTypeNode := none
    currentConstructor := none
    currentParametersWithPropertyAssignments := none
    currentInstancePropertyAssignments := none
    currentEnumLocalName := none }

/-- The compiler options the transform reads (`compilerOptions.*`). -/
structure CompilerOpts where
  preserveConstEnums : Bool
  isolatedModules : Bool
  emitDecoratorMetadata : Bool
deriving Repr

/-- Ambient facts the source obtains from the external traversal framework:
`getParentNode()` / `isSourceFile` (used by `isTopLevelExport` and
`isNamespaceLevelExport`), `findAncestorNode(isModuleDeclaration)` (used by
`getContainingModuleName`), and the `getCombinedNodeFlags(transform)` check
inside `getModuleMemberName` (src line 349; modelled as an opaque boolean
answer). -/
structure Ctx where
  parentIsSourceFile : Bool
  containingModuleGeneratedName : Option Node
  combinedNodeFlagsHasExport : Bool
deriving Repr

/-- The recursive descent of the transform, abstracted.  `one` stands for
`visitNode(n, transformNode)`, `many` for
`visitNodes`/`emitNodes`/`pipeNodes` with `transformNode`, `worker` for a
direct `transformNodeWorker` call, `generatedName` for the external
`getGeneratedNameForNode`, and the three `serialize*` fields for
`serializeTypeOfNode` / `serializeParameterTypesOfNode` /
`serializeReturnTypeOfNode` (Resolver-driven type serialization no claim
depends on). -/
structure Lowerer where
  one : Node → Node
  many : Node → List Node
  worker : Node → List Node
  generatedName : Node → Node
  serializeType : Node → Node
  serializeParamTypes : Node → Node
  serializeReturnType : Node → Node

/-- The identity lowerer: every recursive visit returns its input unchanged.
Used to instantiate concrete evaluations. -/
def Lowerer.id : Lowerer :=
  { one := fun n => n
    many := fun n => [n]
    worker := fun n => [n]
    generatedName := fun _ => Node.ident "_generated"
    serializeType := fun _ => Node.ident "Object"
    serializeParamTypes := fun _ => Node.arrayLit []
    serializeReturnType := fun _ => Node.voidZeroExpr }

/-- The `flags` bitmask stored on a node (`node.flags`); kinds that carry no
modifiers in this embedding report `0`. -/
def Node.flagsOf : Node → Nat
  | .exprStmt f _ => f
  | .varStmt f _ => f
  | .varDecl _ _ f => f
  | .classDecl f _ _ _ _ => f
  | .moduleDecl f _ _ _ _ => f
  | .enumDecl f _ _ => f
  | .methodDecl f _ _ _ _ => f
  | .getAccessorDecl f _ _ _ _ => f
  | .setAccessorDecl f _ _ _ _ => f
  | .propertyDecl f _ _ _ => f
  | .paramDecl f _ _ _ _ => f
  | _ => 0

/-- The `decorators` array of a node (`node.decorators`); an absent array is
the empty list. -/
def Node.decoratorsOf : Node → List Node
  | .classDecl _ ds _ _ _ => ds
  | .methodDecl _ ds _ _ _ => ds
  | .getAccessorDecl _ ds _ _ _ => ds
  | .setAccessorDecl _ ds _ _ _ => ds
  | .propertyDecl _ ds _ _ => ds
  | .paramDecl _ ds _ _ _ => ds
  | _ => []

/-- The `name` of a declaration (`node.name`). -/
def Node.nameOf : Node → Option Node
  | .classDecl _ _ n _ _ => some n
  | .moduleDecl _ n _ _ _ => some n
  | .enumDecl _ n _ => some n
  | .enumMember n _ _ => some n
  | .methodDecl _ _ n _ _ => some n
  | .getAccessorDecl _ _ n _ _ => some n
  | .setAccessorDecl _ _ n _ _ => some n
  | .propertyDecl _ _ n _ => some n
  | .paramDecl _ _ n _ _ => some n
  | .varDecl n _ _ => some n
  | _ => none

/-- The member list of a class-like declaration (`node.members`). -/
def Node.membersOf : Node → List Node
  | .classDecl _ _ _ _ ms => ms
  | .classExpr _ ms => ms
  | _ => []

/-- The heritage clause list of a class declaration (`node.heritageClauses`). -/
def Node.heritageClausesOf : Node → List Node
  | .classDecl _ _ _ hs _ => hs
  | _ => []

/-- The `initializer` expression of a declaration (`node.initializer`). -/
def Node.initializerOf : Node → Option Node
  | .propertyDecl _ _ _ i => i
  | .enumMember _ i _ => i
  | .varDecl _ i _ => i
  | .paramDecl _ _ _ i _ => i
  | _ => none

/-- The `body` of a function-like class element (`node.body`). -/
def Node.bodyOf : Node → Option Node
  | .ctorDecl _ b => b
  | .methodDecl _ _ _ _ b => b
  | .getAccessorDecl _ _ _ _ b => b
  | .setAccessorDecl _ _ _ _ b => b
  | _ => none

/-- The parameter list of a function-like node (`node.parameters`). -/
def Node.paramsOf : Node → List Node
  | .ctorDecl ps _ => ps
  | .methodDecl _ _ _ ps _ => ps
  | .getAccessorDecl _ _ _ ps _ => ps
  | .setAccessorDecl _ _ _ ps _ => ps
  | .funcExpr ps _ => ps
  | .arrowFunc ps _ => ps
  | _ => []

/-- `isIdentifier`. -/
def isIdentifier : Node → Bool
  | .ident _ => true
  | _ => false

/-- `isSuperKeyword`. -/
def isSuperKeyword : Node → Bool
  | .superKw => true
  | _ => false

/-- `isBinaryExpression` (assignments and `||` are binary expressions too). -/
def isBinaryExpression : Node → Bool
  | .binaryExpr _ _ _ => true
  | _ => false

/-- `isConditionalExpression`. -/
def isConditionalExpression : Node → Bool
  | .conditionalExpr _ _ _ => true
  | _ => false

/-- `isBlock`. -/
def isBlock : Node → Bool
  | .blockStmt _ => true
  | _ => false

/-- `isModuleBlock`. -/
def isModuleBlock : Node → Bool
  | .moduleBlock _ => true
  | _ => false

/-- `isAccessor`: a get or set accessor declaration. -/
def isAccessor : Node → Bool
  | .getAccessorDecl _ _ _ _ _ => true
  | .setAccessorDecl _ _ _ _ _ => true
  | _ => false

/-- `isMethodDeclaration`. -/
def isMethodDeclaration : Node → Bool
  | .methodDecl _ _ _ _ _ => true
  | _ => false

/-- `isPropertyDeclaration`. -/
def isPropertyDeclaration : Node → Bool
  | .propertyDecl _ _ _ _ => true
  | _ => false

/-- `isComputedPropertyName`. -/
def isComputedPropertyName : Node → Bool
  | .computedName _ => true
  | _ => false

/-- `isBindingPattern`. -/
def isBindingPattern : Node → Bool
  | .objectBindingPattern _ => true
  | .arrayBindingPattern _ => true
  | _ => false

/-- `isAssignmentOperator`: the token is one of the assignment operators
(`=` and the compound assignments). -/
def isAssignmentOperator : BinOp → Bool
  | .assign => true
  | .plusAssign => true
  | _ => false

/-- `cloneNode` of the Tree Builder: nodes are values here, so a clone is the
node itself. -/
def cloneNode (n : Node) : Node := n

/-- `createAssignmentExpression`. -/
def createAssignmentExpression (l r : Node) : Node := Node.binaryExpr .assign l r

/-- `createLogicalOrExpression`. -/
def createLogicalOrExpression (l r : Node) : Node := Node.binaryExpr .barBar l r

/-- `createMemberAccessForPropertyName`: identifier names become a property
access, literal or computed names an element access. -/
def createMemberAccessForPropertyName (target : Node) (name : Node) : Node :=
  match name with
  | .ident _ => Node.propAccess target name
  | .computedName e => Node.elemAccess target e
  | _ => Node.elemAccess target name

/-- `createRestParameter(createIdentifier("args"), undefined, GeneratedRest)`. -/
def createRestParameter (name : Node) : Node :=
  Node.paramDecl NodeFlags.GeneratedRest [] name none true

/-- `createParameter2(name)`: a plain parameter with no modifiers. -/
def createParameter2 (name : Node) : Node :=
  Node.paramDecl 0 [] name none false

/-- `getDeclarationName`: the declaration's name (the anonymous-default case
gets a placeholder generated name). -/
def getDeclarationName (n : Node) : Node :=
  (Node.nameOf n).getD (Node.ident "_default")

/-- `isTopLevelExport` (src line 320): exported and the parent node is a
source file. -/
def isTopLevelExport (ctx : Ctx) (node : Node) : Bool :=
  ((Node.flagsOf node) &&& NodeFlags.Export != 0) && ctx.parentIsSourceFile

/-- `isTopLevelDefaultExport` (src line 324). -/
def isTopLevelDefaultExport (ctx : Ctx) (node : Node) : Bool :=
  isTopLevelExport ctx node && ((Node.flagsOf node) &&& NodeFlags.Default != 0)

/-- `isTopLevelNonDefaultExport` (src line 328). -/
def isTopLevelNonDefaultExport (ctx : Ctx) (node : Node) : Bool :=
  isTopLevelExport ctx node && !((Node.flagsOf node) &&& NodeFlags.Default != 0)

/-- `isNamespaceLevelExport` (src line 332): exported and the parent node is
not a source file. -/
def isNamespaceLevelExport (ctx : Ctx) (node : Node) : Bool :=
  ((Node.flagsOf node) &&& NodeFlags.Export != 0) && !ctx.parentIsSourceFile

/-- `getContainingModuleName` (src line 340): the generated name of the
enclosing module declaration, else the identifier `exports`. -/
def getContainingModuleName (ctx : Ctx) : Node :=
  ctx.containingModuleGeneratedName.getD (Node.ident "exports")

/-- `getModuleMemberName` (src line 345): the declaration name, prefixed with
the containing module's name when the combined-flags check reports an export.
The source performs that check as `getCombinedNodeFlags(transform)` — the
argument is the enclosing namespace object, not the node — so the answer is
modelled as the opaque context bit `combinedNodeFlagsHasExport`. -/
def getModuleMemberName (ctx : Ctx) (node : Node) : Node :=
  let name := getDeclarationName node
  if ctx.combinedNodeFlagsHasExport then
    Node.propAccess (getContainingModuleName ctx) name
  else
    name


/-- `getFirstConstructorWithBody` (compiler utility, called at src lines 361,
965 and 1191; the utility itself is not under src/).  Modelled from the
spec: signature-only constructor overloads do not count, so this is the
first constructor member that has a body. -/
def getFirstConstructorWithBody (node : Node) : Option Node :=
  (Node.membersOf node).find? fun member =>
    match member with
    | .ctorDecl _ body => body.isSome
    | _ => false

/-- `getInitializedProperties` (src line 482): the property declarations of
the requested static-ness that have an initializer.  The source returns
`undefined` when there are none (it never builds an empty array), which the
`Option` mirrors. -/
def getInitializedProperties (node : Node) (isStatic : Bool) : Option (List Node) :=
  let properties := (Node.membersOf node).filter fun member =>
    match member with
    | .propertyDecl flags _ _ initializer =>
        (isStatic == ((flags &&& NodeFlags.Static) != 0)) && initializer.isSome
    | _ => false
  if properties.isEmpty then none else some properties

/-- `getParametersWithPropertyAssignments` (src line 497): the constructor
parameters with an identifier name and an accessibility modifier;
`undefined` (here `none`) when there are none. -/
def getParametersWithPropertyAssignments (node : Node) : Option (List Node) :=
  let parameters := (Node.paramsOf node).filter fun parameter =>
    match parameter with
    | .paramDecl flags _ name _ _ =>
        isIdentifier name && ((flags &&& NodeFlags.AccessibilityModifier) != 0)
    | _ => false
  if parameters.isEmpty then none else some parameters

/-- `findInitialSuperCall` (src line 512): the constructor body's first
statement, provided it is an expression statement whose expression is a call
to `super`. -/
def findInitialSuperCall (ctor : Node) : Option Node :=
  match Node.bodyOf ctor with
  | some (.blockStmt stmts) =>
      match stmts.head? with
      | some statement =>
          match statement with
          | .exprStmt _ (.callExpr func _) =>
              if isSuperKeyword func then some statement else none
          | _ => none
      | none => none
  | _ => none

/-- `nodeIsDecorated` (compiler utility, not under src/).  Modelled from the
spec and the source's comments ("skip a member if it or any of its
parameters are not decorated"): the node carries a non-empty decorator
list. -/
def nodeIsDecorated (node : Node) : Bool :=
  !(Node.decoratorsOf node).isEmpty

/-- `childIsDecorated` (compiler utility, not under src/).  Modelled from the
spec: a method or set accessor counts as child-decorated when one of its
parameters is decorated.  Only the member form is needed here (the source
applies `nodeOrChildIsDecorated` to class members only, src line 955). -/
def childIsDecorated (node : Node) : Bool :=
  match node with
  | .methodDecl _ _ _ ps _ => ps.any nodeIsDecorated
  | .setAccessorDecl _ _ _ ps _ => ps.any nodeIsDecorated
  | _ => false

/-- `nodeOrChildIsDecorated` (compiler utility, not under src/), modelled
from the spec. -/
def nodeOrChildIsDecorated (node : Node) : Bool :=
  nodeIsDecorated node || childIsDecorated node

/-- `nodeCanBeDecorated` (compiler utility, not under src/).  Modelled from
the spec and the source comment "skip members that cannot be decorated (such
as the constructor)". -/
def nodeCanBeDecorated (node : Node) : Bool :=
  match node with
  | .methodDecl _ _ _ _ _ => true
  | .getAccessorDecl _ _ _ _ _ => true
  | .setAccessorDecl _ _ _ _ _ => true
  | .propertyDecl _ _ _ _ => true
  | .classDecl _ _ _ _ _ => true
  | .paramDecl _ _ _ _ _ => true
  | _ => false

/-- `transformPropertyName` (src line 832).  Computed names have their
expression lowered; when the container is decorated the expression is cached
in a generated name (the accompanying `hoistVariableDeclaration` is an
effect on the external lexical environment and has no tree output besides
the hoisted temporary itself).  Other names are cloned. -/
def transformPropertyName (L : Lowerer) (container : Node) : Node :=
  match (Node.nameOf container).getD Node.voidZeroExpr with
  | .computedName e =>
      let expression := L.one e
      if nodeCanBeDecorated container && nodeIsDecorated container then
        let generatedName := L.generatedName (Node.computedName e)
        Node.computedName (createAssignmentExpression generatedName expression)
      else
        Node.computedName expression
  | n => cloneNode n

/-- `transformPropertyDeclaration` (src line 470): `target.name = lowered
initializer`, with `this` as target for instance properties and the class
name for static ones.  Every property reaching this function has an
initializer (`getInitializedProperties` filtered on it); the `getD` default
is unreachable. -/
def transformPropertyDeclaration (L : Lowerer) (node : Node) (property : Node) : Node :=
  let isStatic := (Node.flagsOf property &&& NodeFlags.Static) != 0
  let target := if isStatic then getDeclarationName node else Node.thisKw
  let name := transformPropertyName L property
  let left := createMemberAccessForPropertyName target name
  let initializer := L.one ((Node.initializerOf property).getD Node.voidZeroExpr)
  createAssignmentExpression left initializer

/-- `transformPropertyDeclarationsToStatements` (src line 449). -/
def transformPropertyDeclarationsToStatements (L : Lowerer) (node : Node)
    (properties : Option (List Node)) : List Node :=
  match properties with
  | none => []
  | some props => props.map fun property =>
      Node.exprStmt 0 (transformPropertyDeclaration L node property)

/-- `emitConstructorBody` (src line 395).  Reads the four scope-context
variables from the state — exactly as the source reads the file-level
`currentBaseTypeNode`, `currentConstructor`,
`currentParametersWithPropertyAssignments` and
`currentInstancePropertyAssignments` — and emits, in order: the user's
leading super call (when a constructor and a base type are present), one
`this.p = p` statement per parameter property assignment, a synthesized
`super(...args)` when there is a base type but no constructor, the instance
property assignments, and the remaining user statements (with the leading
super call dropped when it was consumed). -/
def emitConstructorBody (L : Lowerer) (node : Node) (s : TransformState) : List Node :=
  let baseTypeNode := s.currentBaseTypeNode
  let constructor := s.currentConstructor
  let parameterPropertyAssignments := s.currentParametersWithPropertyAssignments
  let instancePropertyAssignments := s.currentInstancePropertyAssignments
  let (superCall, headStmts) :=
    match constructor with
    | some c =>
        let superCall :=
          match baseTypeNode with
          | some _ => findInitialSuperCall c
          | none => none
        let superStmts :=
          match superCall with
          | some st => [st]
          | none => []
        let paramStmts :=
          match parameterPropertyAssignments with
          | some ps => ps.map fun parameter =>
              let name := cloneNode ((Node.nameOf parameter).getD Node.voidZeroExpr)
              let thisExpr := Node.thisKw
              let propExpr := Node.propAccess thisExpr name
              let assignE := createAssignmentExpression propExpr name
              Node.exprStmt 0 assignE
          | none => []
        (superCall, superStmts ++ paramStmts)
    | none =>
        match baseTypeNode with
        | some _ =>
            let superExpr := Node.superKw
            let argsName := Node.ident "args"
            let spreadExpr := Node.spreadElem argsName
            let callE := Node.callExpr superExpr [spreadExpr]
            (none, [Node.exprStmt NodeFlags.GeneratedSuper callE])
        | none => (none, [])
  let propStmts := transformPropertyDeclarationsToStatements L node instancePropertyAssignments
  let tailStmts :=
    match constructor with
    | some c =>
        let bodyStatements :=
          match Node.bodyOf c with
          | some (.blockStmt stmts) => stmts
          | _ => []
        let remaining :=
          match superCall with
          | some _ => bodyStatements.drop 1
          | none => bodyStatements
        List.flatten (remaining.map L.many)
    | none => []
  headStmts ++ propStmts ++ tailStmts

/-- `transformConstructor` (src line 357).  Computes the first constructor
with a body, the parameter property assignments and the initialized instance
properties; when both assignment lists are absent it returns the (possibly
absent) user constructor unchanged.  Otherwise it lowers the parameters (or
synthesizes a rest parameter `...args` when there is no constructor but a
base type), saves the four scope-context variables, runs the body emitter
(`emitNode(node, emitConstructorBody, ...)`, abstracted as `emitBody`
because its recursive descent may update the context), restores the four
variables, and returns the rebuilt constructor.  Note the source never
assigns the four file-level variables between saving and emitting, so the
body emitter observes whatever context was already current. -/
def transformConstructor (emitBody : TransformState → List Node × TransformState)
    (L : Lowerer) (node : Node) (baseTypeNode : Option Node) (s : TransformState) :
    Option Node × TransformState :=
  let constructor := getFirstConstructorWithBody node
  let parameterPropertyAssignments := constructor.bind getParametersWithPropertyAssignments
  let instancePropertyAssignments := getInitializedProperties node false
  if parameterPropertyAssignments.isNone && instancePropertyAssignments.isNone then
    (constructor, s)
  else
    let parameters :=
      match constructor with
      | some c => List.flatten ((Node.paramsOf c).map L.many)
      | none =>
          match baseTypeNode with
          | some _ => [createRestParameter (Node.ident "args")]
          | none => []
    let savedCurrentBaseTypeNode := s.currentBaseTypeNode
    let savedCurrentConstructor := s.currentConstructor
    let savedCurrentParametersWithPropertyAssignments :=
      s.currentParametersWithPropertyAssignments
    let savedCurrentInstancePropertyAssignments :=
      s.currentInstancePropertyAssignments
    let emitted := emitBody s
    let statements := emitted.1
    let s1 := emitted.2
    let s2 : TransformState :=
      { s1 with
        currentBaseTypeNode := savedCurrentBaseTypeNode
        currentConstructor := savedCurrentConstructor
        currentParametersWithPropertyAssignments :=
          savedCurrentParametersWithPropertyAssignments
        currentInstancePropertyAssignments :=
          savedCurrentInstancePropertyAssignments }
    (some (Node.ctorDecl parameters (some (Node.blockStmt statements))), s2)

/-- `transformConstructor` with its body emitter tied to
`emitConstructorBody`, the composition the source performs through
`emitNode(node, emitConstructorBody, statements, ...)` at src line 385. -/
def transformConstructorRun (L : Lowerer) (node : Node) (baseTypeNode : Option Node)
    (s : TransformState) : Option Node × TransformState :=
  transformConstructor (fun st => (emitConstructorBody L node st, st)) L node baseTypeNode s


/-- The expression carried by a `Decorator` node (`decorator.expression`). -/
def Node.decoratorExpressionOf : Node → Node
  | .decoratorNode e => e
  | n => n

/-- `transformExpressionWithTypeArguments` (src line 445): lower the
expression and drop the type-argument list. -/
def transformExpressionWithTypeArguments (L : Lowerer) (node : Node) : List Node :=
  match node with
  | .exprWithTypeArgs expr _ => [Node.exprWithTypeArgs (L.one expr) false]
  | _ => []

/-- `transformHeritageClause` (src line 439): only the `extends` clause is
written out, with its types lowered; an `implements` clause is elided. -/
def transformHeritageClause (L : Lowerer) (node : Node) : List Node :=
  match node with
  | .heritageClause true types =>
      [Node.heritageClause true (List.flatten (types.map L.many))]
  | _ => []

/-- `visitAndGetClassExtendsHeritageClauseElement` (src line 313): lower the
heritage clauses, take the first resulting clause and its first type. -/
def visitAndGetClassExtendsHeritageClauseElement (L : Lowerer) (node : Node) : Option Node :=
  let heritageClauses := List.flatten ((Node.heritageClausesOf node).map L.many)
  match heritageClauses.head? with
  | some (.heritageClause _ types) => types.head?
  | _ => none

/-- `getExpressionForPropertyName` (src line 819): an identifier name turns
into its string literal, a computed name into its generated name, and other
literal names are cloned. -/
def getExpressionForPropertyName (L : Lowerer) (container : Node) : Node :=
  match (Node.nameOf container).getD Node.voidZeroExpr with
  | .ident text => Node.strLit text
  | .computedName e => L.generatedName (Node.computedName e)
  | n => cloneNode n

/-- `createDecorateHelperCall` (Tree Builder factory, not under src/).
Modelled from the spec and the source's emit comments: with only a target it
builds `target = __decorate([...], target)` ("applies this list to the class
binding and reassigns the result"); with a member name (and optional
descriptor) it builds the plain `__decorate([...], target, name, descr?)`
call. -/
def createDecorateHelperCall (decoratorExpressions : List Node) (target : Node)
    (memberName : Option Node) (descriptor : Option Node) : Node :=
  match memberName with
  | none =>
      createAssignmentExpression target
        (Node.callExpr (Node.ident "__decorate")
          [Node.arrayLit decoratorExpressions, target])
  | some m =>
      Node.callExpr (Node.ident "__decorate")
        ([Node.arrayLit decoratorExpressions, target, m] ++ descriptor.toList)

/-- `createParamHelperCall` (Tree Builder factory): `__param(index, dec)`. -/
def createParamHelperCall (parameterIndex : Nat) (e : Node) : Node :=
  Node.callExpr (Node.ident "__param") [Node.numLit (Int.ofNat parameterIndex), e]

/-- `createMetadataHelperCall` (Tree Builder factory):
`__metadata(key, value)`. -/
def createMetadataHelperCall (key : String) (e : Node) : Node :=
  Node.callExpr (Node.ident "__metadata") [Node.strLit key, e]

/-- `createGetOwnPropertyDescriptorCall` (Tree Builder factory):
`Object.getOwnPropertyDescriptor(target, name)`. -/
def createGetOwnPropertyDescriptorCall (target : Node) (memberName : Node) : Node :=
  Node.callExpr (Node.propAccess (Node.ident "Object") (Node.ident "getOwnPropertyDescriptor"))
    [target, memberName]

/-- `createDefinePropertyCall` (Tree Builder factory):
`Object.defineProperty(target, name, descriptor)`. -/
def createDefinePropertyCall (target : Node) (memberName : Node) (descriptor : Node) : Node :=
  Node.callExpr (Node.propAccess (Node.ident "Object") (Node.ident "defineProperty"))
    [target, memberName, descriptor]

/-- `getClassMemberPrefix` (compiler helper, not under src/).  Modelled from
the source's emit comments: the class name for static members,
`ClassName.prototype` for instance members. -/
def getClassMemberPrefixExpr (node : Node) (member : Node) : Node :=
  if (Node.flagsOf member &&& NodeFlags.Static) != 0 then
    getDeclarationName node
  else
    Node.propAccess (getDeclarationName node) (Node.ident "prototype")

/-- `shouldAppendTypeMetadata` (src line 1135): methods, accessors and
properties get `design:type`. -/
def shouldAppendTypeMetadata : Node → Bool
  | .methodDecl _ _ _ _ _ => true
  | .getAccessorDecl _ _ _ _ _ => true
  | .setAccessorDecl _ _ _ _ _ => true
  | .propertyDecl _ _ _ _ => true
  | _ => false

/-- `shouldAppendReturnTypeMetadata` (src line 1150): methods only. -/
def shouldAppendReturnTypeMetadata : Node → Bool
  | .methodDecl _ _ _ _ _ => true
  | _ => false

/-- `shouldAppendParamTypesMetadata` (src line 1161): class declarations,
methods and set accessors. -/
def shouldAppendParamTypesMetadata : Node → Bool
  | .classDecl _ _ _ _ _ => true
  | .methodDecl _ _ _ _ _ => true
  | .setAccessorDecl _ _ _ _ _ => true
  | _ => false

/-- `appendSerializedTypeMetadata` (src line 1116): conditionally append the
`design:type`, `design:paramtypes` and `design:returntype` metadata calls,
each wrapping its serialized type in a zero-argument arrow function.  The
serialization itself (`serializeTypeOfNode` and friends, src lines
1174-1334) is Resolver- and type-annotation-driven and is abstracted into
the `Lowerer`. -/
def appendSerializedTypeMetadata (L : Lowerer) (node : Node) : List Node :=
  let typePart :=
    if shouldAppendTypeMetadata node then
      [createMetadataHelperCall "design:type" (Node.arrowFunc [] (L.serializeType node))]
    else []
  let paramTypesPart :=
    if shouldAppendParamTypesMetadata node then
      [createMetadataHelperCall "design:paramtypes"
        (Node.arrowFunc [] (L.serializeParamTypes node))]
    else []
  let returnTypePart :=
    if shouldAppendReturnTypeMetadata node then
      [createMetadataHelperCall "design:returntype"
        (Node.arrowFunc [] (L.serializeReturnType node))]
    else []
  typePart ++ paramTypesPart ++ returnTypePart

/-- `appendDecoratorsOfParameters` (src line 1102): for each decorated
parameter, one `__param(index, loweredDecorator)` per decorator, in
parameter order. -/
def appendDecoratorsOfParameters (L : Lowerer) (parameters : List Node) : List Node :=
  List.flatten (parameters.enum.map fun pair =>
    let parameterIndex := pair.1
    let parameter := pair.2
    if nodeIsDecorated parameter then
      (Node.decoratorsOf parameter).map fun decorator =>
        createParamHelperCall parameterIndex (L.one (Node.decoratorExpressionOf decorator))
    else [])

/-- The result record of `getAllAccessorDeclarations`. -/
structure AllAccessorDeclarations where
  firstAccessor : Option Node
  secondAccessor : Option Node
  getAccessor : Option Node
  setAccessor : Option Node
deriving Repr

/-- The text of a literal property name, used to pair accessors. -/
def propertyNameText : Node → Option String
  | .ident t => some t
  | .strLit t => some t
  | .numLit v => some (toString v)
  | _ => none

/-- `getAllAccessorDeclarations` (compiler utility, not under src/).
Modelled from the spec: the pair is the accessors among the members with the
same (literal) name and the same static-ness, in declaration order;
`firstAccessor` is the first-declared one.  An accessor with a dynamic
(computed) name pairs only with itself. -/
def getAllAccessorDeclarations (members : List Node) (accessor : Node) : AllAccessorDeclarations :=
  match (Node.nameOf accessor).getD Node.voidZeroExpr with
  | .computedName _ =>
      { firstAccessor := some accessor
        secondAccessor := none
        getAccessor := none
        setAccessor := none }
  | nameNode =>
      let accessorName := propertyNameText nameNode
      let matching := members.filter fun m =>
        isAccessor m &&
        (((Node.flagsOf m) &&& NodeFlags.Static) == ((Node.flagsOf accessor) &&& NodeFlags.Static)) &&
        (match (Node.nameOf m).getD Node.voidZeroExpr with
         | mName => propertyNameText mName == accessorName && (propertyNameText mName).isSome)
      { firstAccessor := matching.head?
        secondAccessor := (matching.drop 1).head?
        getAccessor := matching.find? fun m =>
          match m with
          | .getAccessorDecl _ _ _ _ _ => true
          | _ => false
        setAccessor := matching.find? fun m =>
          match m with
          | .setAccessorDecl _ _ _ _ _ => true
          | _ => false }

/-- `transformDecoratorsOfMember` (src line 1005).  For a bodied accessor:
skip everything unless this member is the pair's first accessor; take the
first accessor's decorators, or the second accessor's when the first has
none; take parameters only from the set accessor.  For other members: the
member's own decorators, and parameters only for bodied methods.  Then emit
either a bare `__decorate` statement (properties) or a
`Object.defineProperty(prefix, name, __decorate(..., descriptor))` statement
(methods and accessors).  Note the metadata append receives the class
`node`, exactly as the source passes `node` at line 1083. -/
def transformDecoratorsOfMember (L : Lowerer) (opts : CompilerOpts)
    (node : Node) (member : Node) : List Node :=
  let decoratorsAndParameters : Option (List Node × Option (List Node)) :=
    if isAccessor member && (Node.bodyOf member).isSome then
      let accessors := getAllAccessorDeclarations (Node.membersOf node) member
      if !(Node.beqOpt (some member) accessors.firstAccessor) then
        none
      else
        let decorators :=
          match accessors.firstAccessor with
          | some fa => Node.decoratorsOf fa
          | none => []
        let decorators :=
          if decorators.isEmpty then
            match accessors.secondAccessor with
            | some sa => Node.decoratorsOf sa
            | none => decorators
          else decorators
        let parameters := accessors.setAccessor.map Node.paramsOf
        some (decorators, parameters)
    else
      let decorators := Node.decoratorsOf member
      let parameters :=
        if isMethodDeclaration member && (Node.bodyOf member).isSome then
          some (Node.paramsOf member)
        else none
      some (decorators, parameters)
  match decoratorsAndParameters with
  | none => []
  | some (decorators, parameters) =>
      let decoratorExpressions :=
        decorators.map fun decorator => L.one (Node.decoratorExpressionOf decorator)
      let decoratorExpressions := decoratorExpressions ++
        (match parameters with
         | some ps => appendDecoratorsOfParameters L ps
         | none => [])
      let decoratorExpressions := decoratorExpressions ++
        (if opts.emitDecoratorMetadata then appendSerializedTypeMetadata L node else [])
      let prefixExpr := getClassMemberPrefixExpr node member
      let memberName := getExpressionForPropertyName L member
      if isPropertyDeclaration member then
        [Node.exprStmt 0
          (createDecorateHelperCall decoratorExpressions prefixExpr (some memberName) none)]
      else
        let descriptorExpr := createGetOwnPropertyDescriptorCall prefixExpr memberName
        let decorateExpr :=
          createDecorateHelperCall decoratorExpressions prefixExpr (some memberName)
            (some descriptorExpr)
        let definePropertyExpr := createDefinePropertyCall prefixExpr memberName decorateExpr
        [Node.exprStmt 0 definePropertyExpr]

/-- `transformDecoratorsOfMembers` (src line 946): walk the members of the
requested static-ness, skipping members that cannot be decorated or are not
(themselves or through their parameters) decorated. -/
def transformDecoratorsOfMembers (L : Lowerer) (opts : CompilerOpts)
    (node : Node) (isStatic : Bool) : List Node :=
  List.flatten ((Node.membersOf node).map fun member =>
    if isStatic != (((Node.flagsOf member) &&& NodeFlags.Static) != 0) then []
    else if !(nodeCanBeDecorated member) || !(nodeOrChildIsDecorated member) then []
    else transformDecoratorsOfMember L opts node member)

/-- `transformDecoratorsOfConstructor` (src line 963): skipped entirely when
the class carries no decorators and no parameter of the first bodied
constructor is decorated; otherwise the class decorators (in order), then
the constructor's parameter decorators, then (when enabled) the serialized
type metadata, applied to the class binding in one reassigning `__decorate`
statement. -/
def transformDecoratorsOfConstructor (L : Lowerer) (opts : CompilerOpts) (node : Node) : List Node :=
  let decorators := Node.decoratorsOf node
  let constructor := getFirstConstructorWithBody node
  let hasDecoratedParameters :=
    match constructor with
    | some c => (Node.paramsOf c).any nodeIsDecorated
    | none => false
  if decorators.isEmpty && !hasDecoratedParameters then []
  else
    let decoratorExpressions :=
      decorators.map fun decorator => L.one (Node.decoratorExpressionOf decorator)
    let decoratorExpressions := decoratorExpressions ++
      (match constructor with
       | some c => appendDecoratorsOfParameters L (Node.paramsOf c)
       | none => [])
    let decoratorExpressions := decoratorExpressions ++
      (if opts.emitDecoratorMetadata then appendSerializedTypeMetadata L node else [])
    let name := getDeclarationName node
    let callE := createDecorateHelperCall decoratorExpressions name none none
    [Node.exprStmt 0 callE]

/-- `createClassExpression3` (Tree Builder factory). -/
def createClassExpression3 (baseTypeNode : Option Node) (classMembers : List Node) : Node :=
  Node.classExpr baseTypeNode classMembers

/-- `createClassDeclaration2` (Tree Builder factory). -/
def createClassDeclaration2 (name : Node) (baseTypeNode : Option Node)
    (classMembers : List Node) (flags : Nat) : Node :=
  Node.classDecl flags [] name
    (match baseTypeNode with
     | some b => [Node.heritageClause true [b]]
     | none => [])
    classMembers

/-- `createSimpleLetStatement` (Tree Builder factory): `let name = init;`,
optionally exported. -/
def createSimpleLetStatement (name : Node) (initializer : Node) (isExported : Bool) : Node :=
  Node.varStmt (if isExported then NodeFlags.Export else 0)
    [Node.varDecl name (some initializer) 0]

/-- `createExportDefaultStatement` (Tree Builder factory): stands for the
`export default name;` re-statement; carried as a flagged expression
statement in this embedding. -/
def createExportDefaultStatement (name : Node) : Node :=
  Node.exprStmt NodeFlags.Default (cloneNode name)

/-- `transformClassDeclaration` (src line 249).  Lowers the heritage clause,
builds the member list from the transformed constructor followed by the
lowered members, emits the class (as a `let`-bound class expression when the
class itself is decorated, else as a plain declaration with export flags
kept only outside namespaces), then the static property initializers, the
instance member decorators, the static member decorators, the constructor
decorators, and finally the namespace-export assignment or the decorated
default-export re-statement. -/
def transformClassDeclaration (L : Lowerer) (ctx : Ctx) (opts : CompilerOpts)
    (node : Node) (s : TransformState) : List Node × TransformState :=
  let baseTypeNode := visitAndGetClassExtendsHeritageClauseElement L node
  let constructorAndState := transformConstructorRun L node baseTypeNode s
  let constructor := constructorAndState.1
  let s1 := constructorAndState.2
  let classMembers :=
    (match constructor with
     | some c => [c]
     | none => []) ++ List.flatten ((Node.membersOf node).map L.many)
  let classStmt :=
    if nodeIsDecorated node then
      let classExprNode := createClassExpression3 baseTypeNode classMembers
      createSimpleLetStatement (getDeclarationName node) classExprNode
        (isTopLevelNonDefaultExport ctx node)
    else
      let exportFlags :=
        if isNamespaceLevelExport ctx node then 0
        else (Node.flagsOf node) &&& (NodeFlags.Export ||| NodeFlags.Default)
      createClassDeclaration2 (getDeclarationName node) baseTypeNode classMembers exportFlags
  let staticPropStmts :=
    transformPropertyDeclarationsToStatements L node (getInitializedProperties node true)
  let instanceDecorStmts := transformDecoratorsOfMembers L opts node false
  let staticDecorStmts := transformDecoratorsOfMembers L opts node true
  let ctorDecorStmts := transformDecoratorsOfConstructor L opts node
  let tailStmts :=
    if isNamespaceLevelExport ctx node then
      [Node.exprStmt 0
        (createAssignmentExpression (getModuleMemberName ctx node) (getDeclarationName node))]
    else if isTopLevelDefaultExport ctx node && nodeIsDecorated node then
      [createExportDefaultStatement (getDeclarationName node)]
    else []
  ([classStmt] ++ staticPropStmts ++ instanceDecorStmts ++ staticDecorStmts ++
    ctorDecorStmts ++ tailStmts, s1)


/-- `isConst` (compiler utility): the declaration carries the `const`
flag. -/
def isConst (node : Node) : Bool :=
  ((Node.flagsOf node) &&& NodeFlags.Const) != 0

/-- `shouldEmitModuleDeclaration` (src line 811), through
`isInstantiatedModule(node, preserveConstEnums || isolatedModules)` (a
compiler utility not under src/, modelled from the spec): emit when the
Resolver reports the namespace instantiated, or when const-enum preservation
or isolated-modules mode forces emission. -/
def shouldEmitModuleDeclaration (opts : CompilerOpts) (node : Node) : Bool :=
  match node with
  | .moduleDecl _ _ _ instantiated _ =>
      instantiated || (opts.preserveConstEnums || opts.isolatedModules)
  | _ => false

/-- `isModuleMergedWithClass` (src line 815): the Resolver's
`LexicalModuleMergesWithClass` check flag, carried on the node. -/
def isModuleMergedWithClassFlag (node : Node) : Bool :=
  match node with
  | .moduleDecl _ _ _ _ merges => merges
  | _ => false

/-- `transformModuleElement` (src line 56): a statement directly inside a
module is forced through the worker when it carries the export flag,
bypassing the flag-skip of `transformNode`. -/
def transformModuleElement (L : Lowerer) (node : Node) : List Node :=
  if ((Node.flagsOf node) &&& NodeFlags.Export) != 0 then
    L.worker node
  else
    L.many node

/-- `transformModuleDeclaration` (src line 766).  Unless the namespace merges
with a same-named class, a forward `var` declaration is written (export flag
only at top level).  The body is lowered (module blocks through the
export-aware `transformModuleElement`, a single nested statement through an
ordinary visit, wrapped into a block when needed) and becomes an
immediately-invoked function of one parameter, called with the
use-existing-or-initialize-empty storage expression
`member || (member = {})` — additionally assigned back onto the local
binding when the namespace is itself a namespace-level export. -/
def transformModuleDeclaration (L : Lowerer) (ctx : Ctx) (opts : CompilerOpts)
    (node : Node) : List Node :=
  match node with
  | .moduleDecl _ name body _ _ =>
      if !shouldEmitModuleDeclaration opts node then []
      else
        let headStmts :=
          if !isModuleMergedWithClassFlag node then
            let exportFlags := if isTopLevelExport ctx node then NodeFlags.Export else 0
            [Node.varStmt exportFlags [Node.varDecl name none 0]]
          else []
        let localName := L.generatedName node
        let localParam := createParameter2 localName
        let moduleBody :=
          match body with
          | .moduleBlock stmts =>
              Node.blockStmt (List.flatten (stmts.map (transformModuleElement L)))
          | b =>
              let inner := L.one b
              if isBlock inner then inner else Node.blockStmt [inner]
        let funcE := Node.funcExpr [localParam] moduleBody
        let parenE := Node.parenExpr funcE
        let moduleMemberName := getModuleMemberName ctx node
        let moduleStorageObjExpr := Node.objectLit []
        let moduleStorageInitExpr :=
          createAssignmentExpression moduleMemberName moduleStorageObjExpr
        let moduleStorageExpr :=
          createLogicalOrExpression moduleMemberName moduleStorageInitExpr
        let moduleParam :=
          if isNamespaceLevelExport ctx node then
            createAssignmentExpression (cloneNode name) moduleStorageExpr
          else
            moduleStorageExpr
        let callStmt :=
          Node.exprStmt NodeFlags.GeneratedNamespace (Node.callExpr parenE [moduleParam])
        headStmts ++ [callStmt]
  | _ => []

/-- `getEnumMemberDeclarationValue` (src line 906): the Resolver's constant
as a numeric literal when available, else the lowered initializer, else
`void 0`. -/
def getEnumMemberDeclarationValue (L : Lowerer) (member : Node) : Node :=
  match member with
  | .enumMember _ initializer constantValue =>
      match constantValue with
      | some value => Node.numLit value
      | none =>
          match initializer with
          | some ini => L.one ini
          | none => Node.voidZeroExpr
  | _ => Node.voidZeroExpr

/-- `emitEnumMember` (src line 895): one chained-assignment statement per
member, `local[local[nameExpr] = valueExpr] = nameExpr`, on the current enum
local name from the scope context (set by `transformEnumDeclaration` before
the members are emitted; the `getD` default stands for the variable's
initial `undefined`). -/
def emitEnumMember (L : Lowerer) (s : TransformState) (member : Node) : List Node :=
  let enumNameExpr := getExpressionForPropertyName L member
  let enumValueExpr := getEnumMemberDeclarationValue L member
  let localName := s.currentEnumLocalName.getD Node.voidZeroExpr
  let enumNameElemExpr := Node.elemAccess localName enumNameExpr
  let enumValueAssignExpr := createAssignmentExpression enumNameElemExpr enumValueExpr
  let enumValueElemExpr := Node.elemAccess localName enumValueAssignExpr
  let enumNameAssignExpr := createAssignmentExpression enumValueElemExpr enumNameExpr
  [Node.exprStmt 0 enumNameAssignExpr]

/-- `shouldEmitEnumDeclaration` (src line 919). -/
def shouldEmitEnumDeclaration (opts : CompilerOpts) (node : Node) : Bool :=
  isConst node || opts.preserveConstEnums || opts.isolatedModules

/-- `transformEnumDeclaration` (src line 851).  Saves the current enum local
name, installs the enum's generated name, writes the forward `var`
declaration (unless the enum is a namespace-level export; export flag only
at top level), emits the member statements (the member emitter is abstracted
because its recursive descent may update the scope context), wraps them in
an immediately-invoked function of the local name called with the
use-existing-or-initialize-empty storage expression, adds the namespace-
export alias declaration when needed, and restores the saved enum local
name. -/
def transformEnumDeclaration (emitMembers : TransformState → List Node × TransformState)
    (L : Lowerer) (ctx : Ctx) (opts : CompilerOpts) (node : Node) (s : TransformState) :
    List Node × TransformState :=
  if !shouldEmitEnumDeclaration opts node then ([], s)
  else
    let savedCurrentEnumLocalName := s.currentEnumLocalName
    let localName := L.generatedName node
    let s1 : TransformState := { s with currentEnumLocalName := some localName }
    let enumName := (Node.nameOf node).getD Node.voidZeroExpr
    let headStmts :=
      if !isNamespaceLevelExport ctx node then
        let exportFlags := if isTopLevelExport ctx node then NodeFlags.Export else 0
        [Node.varStmt 0 [Node.varDecl enumName none exportFlags]]
      else []
    let emitted := emitMembers s1
    let enumStatements := emitted.1
    let s2 := emitted.2
    let enumBody := Node.blockStmt enumStatements
    let localNameParam := createParameter2 localName
    let enumFuncExpr := Node.funcExpr [localNameParam] enumBody
    let parenE := Node.parenExpr enumFuncExpr
    let moduleMemberName := getModuleMemberName ctx node
    let enumStorageObjectExpr := Node.objectLit []
    let enumStorageInitExpr :=
      createAssignmentExpression moduleMemberName enumStorageObjectExpr
    let enumStorageExpr :=
      createLogicalOrExpression moduleMemberName enumStorageInitExpr
    let callStmt := Node.exprStmt 0 (Node.callExpr parenE [enumStorageExpr])
    let tailStmts :=
      if isNamespaceLevelExport ctx node then
        [Node.varStmt 0 [Node.varDecl enumName (some moduleMemberName) 0]]
      else []
    (headStmts ++ [callStmt] ++ tailStmts,
      { s2 with currentEnumLocalName := savedCurrentEnumLocalName })

/-- `transformEnumDeclaration` with the member emission tied to
`emitEnumMember` over the enum's members, the composition the source
performs through `emitNodes(node.members, emitEnumMember, enumStatements)`
at src line 871. -/
def transformEnumDeclarationRun (L : Lowerer) (ctx : Ctx) (opts : CompilerOpts)
    (node : Node) (s : TransformState) : List Node × TransformState :=
  transformEnumDeclaration
    (fun st => (List.flatten ((match node with
      | .enumDecl _ _ members => members
      | _ => []).map (emitEnumMember L st)), st))
    L ctx opts node s

/-- `needsParenthesisForAwaitExpressionAsYield` (src line 934): true when the
parent is a binary expression whose operator is not an assignment operator,
or when the parent is a conditional expression whose condition is this very
node. -/
def needsParenthesisForAwaitExpressionAsYield (parentNode : Node) (node : Node) : Bool :=
  if isBinaryExpression parentNode &&
      !(match parentNode with
        | .binaryExpr op _ _ => isAssignmentOperator op
        | _ => false) then
    true
  else if isConditionalExpression parentNode &&
      (match parentNode with
       | .conditionalExpr cond _ _ => Node.beq cond node
       | _ => false) then
    true
  else
    false

/-- `transformAwaitExpression` (src line 923): lower the operand, wrap it in
a yield expression, and parenthesize exactly when
`needsParenthesisForAwaitExpressionAsYield` says so.  The parent node comes
from the external traversal's node stack (`getParentNode()`), passed
explicitly here. -/
def transformAwaitExpression (L : Lowerer) (parentNode : Node) (node : Node) : Node :=
  let expression := L.one (match node with
    | .awaitExpr e => e
    | n => n)
  let yieldE := Node.yieldExpr expression
  if needsParenthesisForAwaitExpressionAsYield parentNode node then
    Node.parenExpr yieldE
  else
    yieldE

/-- `transformVariableStatement` (src line 709): the namespace-export
conversion (`pipeNode(node.declarationList, write,
transformVariableDeclarationListToExpressionStatement)`) is commented out
behind a TODO in the source; every variable statement — namespace-exported
or not — falls through to the generic `accept` descent. -/
def transformVariableStatement (acceptF : Node → List Node) (node : Node) : List Node :=
  acceptF node

/-- `inlineExpressions` (Tree Builder factory): fold a list of expressions
into one comma expression. -/
def inlineExpressions (expressions : List Node) : Node :=
  match expressions with
  | [] => Node.voidZeroExpr
  | e :: rest => rest.foldl (fun acc x => Node.binaryExpr .comma acc x) e

/-- `transformObjectBindingPatternToExpression` (src line 754): the body
starts with `Debug.fail("not implemented")`, so invoking it aborts the
lowering of the unit before anything is written. -/
def transformObjectBindingPatternToExpression (_node : Node) : Except String Node :=
  Except.error "not implemented"

/-- `transformArrayBindingPatternToExpression` (src line 760): also starts
with `Debug.fail("not implemented")`. -/
def transformArrayBindingPatternToExpression (_node : Node) : Except String Node :=
  Except.error "not implemented"

/-- `transformBindingPatternToExpression` (src line 744): dispatch on the
binding-pattern kind; other kinds fall off the switch and write nothing. -/
def transformBindingPatternToExpression (node : Node) : Except String (Option Node) :=
  match node with
  | .objectBindingPattern _ => (transformObjectBindingPatternToExpression node).map some
  | .arrayBindingPattern _ => (transformArrayBindingPatternToExpression node).map some
  | _ => Except.ok none

/-- `transformVariableDeclarationToExpression` (src line 723): declarations
without initializer produce nothing; binding-pattern targets go through the
(aborting) pattern conversion; identifier targets become an assignment onto
the module member name. -/
def transformVariableDeclarationToExpression (L : Lowerer) (ctx : Ctx) (node : Node) :
    Except String (List Node) :=
  match node with
  | .varDecl name initializer _ =>
      match initializer with
      | none => Except.ok []
      | some ini =>
          if isBindingPattern name then
            match transformBindingPatternToExpression name with
            | .error e => .error e
            | .ok exprOpt =>
                let expr := exprOpt.getD Node.voidZeroExpr
                let loweredInit := L.one ini
                .ok [Node.parenExpr (createAssignmentExpression expr loweredInit)]
          else
            let memberName := getModuleMemberName ctx node
            let loweredInit := L.one ini
            .ok [createAssignmentExpression memberName loweredInit]
  | _ => .ok []

/-- `transformVariableDeclarationListToExpressionStatement` (src line 716):
inline the per-declaration expressions into one expression statement; this
function is never invoked by `transformVariableStatement` in the source (its
call is commented out). -/
def transformVariableDeclarationListToExpressionStatement (L : Lowerer) (ctx : Ctx)
    (declarations : List Node) : Except String (List Node) :=
  (declarations.mapM (transformVariableDeclarationToExpression L ctx)).map fun results =>
    let expressions := List.flatten results
    if expressions.isEmpty then []
    else [Node.exprStmt 0 (inlineExpressions expressions)]


/-- `transformNode` (src line 36), the traversal controller.  The
transform-need flags are parser-computed node attributes, supplied as the
attribute map `tflags`; `worker` stands for `transformNodeWorker` and
`acceptF` for the generic `accept` fallback of the external traversal
framework.  An absent node writes nothing; a node whose own flag is set is
dispatched to the worker; a node with only the subtree flag set goes to the
generic descent; otherwise the very same node is written back unchanged. -/
def transformNode (tflags : Node → Nat) (worker : Node → List Node)
    (acceptF : Node → List Node) (node : Option Node) : List Node :=
  match node with
  | none => []
  | some n =>
      if (tflags n &&& TransformFlags.ThisNodeNeedsTransformToES6) != 0 then
        worker n
      else if (tflags n &&& TransformFlags.SubtreeNeedsTransformToES6) != 0 then
        acceptF n
      else
        [n]

/-- A numeric code for a node's syntax kind. -/
def nodeKindCode : Node → Nat
  | .ident _ => 0
  | .strLit _ => 1
  | .numLit _ => 2
  | .thisKw => 3
  | .superKw => 4
  | .voidZeroExpr => 5
  | .objectLit _ => 6
  | .arrayLit _ => 7
  | .propAccess _ _ => 8
  | .elemAccess _ _ => 9
  | .binaryExpr _ _ _ => 10
  | .conditionalExpr _ _ _ => 11
  | .callExpr _ _ => 12
  | .spreadElem _ => 13
  | .parenExpr _ => 14
  | .yieldExpr _ => 15
  | .awaitExpr _ => 16
  | .funcExpr _ _ => 17
  | .arrowFunc _ _ => 18
  | .classExpr _ _ => 19
  | .exprStmt _ _ => 20
  | .blockStmt _ => 21
  | .varStmt _ _ => 22
  | .varDecl _ _ _ => 23
  | .classDecl _ _ _ _ _ => 24
  | .heritageClause _ _ => 25
  | .exprWithTypeArgs _ _ => 26
  | .moduleDecl _ _ _ _ _ => 27
  | .moduleBlock _ => 28
  | .enumDecl _ _ _ => 29
  | .enumMember _ _ _ => 30
  | .ctorDecl _ _ => 31
  | .methodDecl _ _ _ _ _ => 32
  | .getAccessorDecl _ _ _ _ _ => 33
  | .setAccessorDecl _ _ _ _ _ => 34
  | .propertyDecl _ _ _ _ => 35
  | .paramDecl _ _ _ _ _ => 36
  | .decoratorNode _ => 37
  | .computedName _ => 38
  | .objectBindingPattern _ => 39
  | .arrayBindingPattern _ => 40

/-- The immediate child nodes of a node, in tree order. -/
def Node.childNodes : Node → List Node
  | .ident _ => []
  | .strLit _ => []
  | .numLit _ => []
  | .thisKw => []
  | .superKw => []
  | .voidZeroExpr => []
  | .objectLit props => props
  | .arrayLit elems => elems
  | .propAccess obj name => [obj, name]
  | .elemAccess obj index => [obj, index]
  | .binaryExpr _ l r => [l, r]
  | .conditionalExpr c t f => [c, t, f]
  | .callExpr callee args => callee :: args
  | .spreadElem e => [e]
  | .parenExpr e => [e]
  | .yieldExpr e => [e]
  | .awaitExpr e => [e]
  | .funcExpr params body => params ++ [body]
  | .arrowFunc params body => params ++ [body]
  | .classExpr base members => base.toList ++ members
  | .exprStmt _ e => [e]
  | .blockStmt stmts => stmts
  | .varStmt _ decls => decls
  | .varDecl name init _ => name :: init.toList
  | .classDecl _ ds name hs ms => ds ++ [name] ++ hs ++ ms
  | .heritageClause _ types => types
  | .exprWithTypeArgs e _ => [e]
  | .moduleDecl _ name body _ _ => [name, body]
  | .moduleBlock stmts => stmts
  | .enumDecl _ name members => name :: members
  | .enumMember name init _ => name :: init.toList
  | .ctorDecl params body => params ++ body.toList
  | .methodDecl _ ds name ps body => ds ++ [name] ++ ps ++ body.toList
  | .getAccessorDecl _ ds name ps body => ds ++ [name] ++ ps ++ body.toList
  | .setAccessorDecl _ ds name ps body => ds ++ [name] ++ ps ++ body.toList
  | .propertyDecl _ ds name init => ds ++ [name] ++ init.toList
  | .paramDecl _ ds name init _ => ds ++ [name] ++ init.toList
  | .decoratorNode e => [e]
  | .computedName e => [e]
  | .objectBindingPattern els => els
  | .arrayBindingPattern els => els

/-- The generic structural-descent fallback `accept` of the traversal
framework (`transform.generated.ts`, referenced at src line 1; not under
src/).  Modelled from the spec: rebuild the node with the same kind and
non-child attributes, passing each immediate child through the visitor. -/
def acceptModel (f : Node → Node) : Node → Node
  | .ident t => .ident t
  | .strLit t => .strLit t
  | .numLit v => .numLit v
  | .thisKw => .thisKw
  | .superKw => .superKw
  | .voidZeroExpr => .voidZeroExpr
  | .objectLit props => .objectLit (props.map f)
  | .arrayLit elems => .arrayLit (elems.map f)
  | .propAccess obj name => .propAccess (f obj) (f name)
  | .elemAccess obj index => .elemAccess (f obj) (f index)
  | .binaryExpr op l r => .binaryExpr op (f l) (f r)
  | .conditionalExpr c t fl => .conditionalExpr (f c) (f t) (f fl)
  | .callExpr callee args => .callExpr (f callee) (args.map f)
  | .spreadElem e => .spreadElem (f e)
  | .parenExpr e => .parenExpr (f e)
  | .yieldExpr e => .yieldExpr (f e)
  | .awaitExpr e => .awaitExpr (f e)
  | .funcExpr params body => .funcExpr (params.map f) (f body)
  | .arrowFunc params body => .arrowFunc (params.map f) (f body)
  | .classExpr base members => .classExpr (base.map f) (members.map f)
  | .exprStmt flags e => .exprStmt flags (f e)
  | .blockStmt stmts => .blockStmt (stmts.map f)
  | .varStmt flags decls => .varStmt flags (decls.map f)
  | .varDecl name init flags => .varDecl (f name) (init.map f) flags
  | .classDecl flags ds name hs ms =>
      .classDecl flags (ds.map f) (f name) (hs.map f) (ms.map f)
  | .heritageClause isExt types => .heritageClause isExt (types.map f)
  | .exprWithTypeArgs e hasTA => .exprWithTypeArgs (f e) hasTA
  | .moduleDecl flags name body inst merges =>
      .moduleDecl flags (f name) (f body) inst merges
  | .moduleBlock stmts => .moduleBlock (stmts.map f)
  | .enumDecl flags name members => .enumDecl flags (f name) (members.map f)
  | .enumMember name init cv => .enumMember (f name) (init.map f) cv
  | .ctorDecl params body => .ctorDecl (params.map f) (body.map f)
  | .methodDecl flags ds name ps body =>
      .methodDecl flags (ds.map f) (f name) (ps.map f) (body.map f)
  | .getAccessorDecl flags ds name ps body =>
      .getAccessorDecl flags (ds.map f) (f name) (ps.map f) (body.map f)
  | .setAccessorDecl flags ds name ps body =>
      .setAccessorDecl flags (ds.map f) (f name) (ps.map f) (body.map f)
  | .propertyDecl flags ds name init =>
      .propertyDecl flags (ds.map f) (f name) (init.map f)
  | .paramDecl flags ds name init ddd =>
      .paramDecl flags (ds.map f) (f name) (init.map f) ddd
  | .decoratorNode e => .decoratorNode (f e)
  | .computedName e => .computedName (f e)
  | .objectBindingPattern els => .objectBindingPattern (els.map f)
  | .arrayBindingPattern els => .arrayBindingPattern (els.map f)

/-- Runtime values for the storage-object and enum-store semantics.  Objects
are tracked by identity so that "reusing" and "overwriting" a storage object
are distinguishable. -/
inductive JsVal where
  | undef
  | num (v : Int)
  | str (s : String)
  | obj (id : Nat)
deriving Repr, DecidableEq

/-- JavaScript truthiness of a `JsVal`. -/
def truthy : JsVal → Bool
  | .undef => false
  | .num v => v != 0
  | .str s => s != ""
  | .obj _ => true

/-- Evaluation of a storage argument expression over a variable environment.
It interprets exactly the shape the lowering produces:
`name || (name = {})` yields the current value when truthy (the environment
is untouched — reuse), else allocates the fresh object `freshId` and assigns
it to the binding. -/
def evalStorageExpr (e : Node) (env : String → JsVal) (freshId : Nat) :
    Option (JsVal × (String → JsVal)) :=
  match e with
  | .binaryExpr .barBar (.ident m1)
      (.binaryExpr .assign (.ident m2) (.objectLit [])) =>
      if m1 == m2 then
        if truthy (env m1) then some (env m1, env)
        else some (.obj freshId, fun k => if k == m1 then .obj freshId else env k)
      else none
  | _ => none

/-- A property store of the enum storage object: JavaScript property keys
are strings. -/
abbrev EnumStore := String → Option JsVal

/-- The JavaScript property-key text of an integer-valued number. -/
def jsNumKey (v : Int) : String := toString v

/-- Execution of one emitted enum-member statement over a property store.
It interprets exactly the chained shape `local[local[n] = v] = n` with a
string-literal name and a numeric-literal value, in evaluation order: the
inner assignment stores the value under the name key and yields the value,
which then serves as the key under which the outer assignment stores the
name. -/
def execEnumMemberStmt (localText : String) (stmt : Node) (store : EnumStore) :
    Option EnumStore :=
  match stmt with
  | .exprStmt _ (.binaryExpr .assign
      (.elemAccess (.ident l2)
        (.binaryExpr .assign (.elemAccess (.ident l1) (.strLit n)) (.numLit v)))
      (.strLit n2)) =>
      if l1 == localText && l2 == localText && n2 == n then
        let store1 : EnumStore := fun k => if k == n then some (.num v) else store k
        let store2 : EnumStore := fun k => if k == jsNumKey v then some (.str n) else store1 k
        some store2
      else none
  | _ => none


/-- The boolean guard of `transformDecoratorsOfConstructor` (src line 966):
some parameter of the first bodied constructor is decorated. -/
def constructorHasDecoratedParameters (node : Node) : Bool :=
  match getFirstConstructorWithBody node with
  | some c => (Node.paramsOf c).any nodeIsDecorated
  | none => false

/-- The decorator list the source selects for an accessor pair (src lines
1016-1020): the first accessor's decorators, or the second accessor's when
the first has none — a first-nonempty choice, not a union. -/
def accessorPairDecorators (accessors : AllAccessorDeclarations) : List Node :=
  let decorators :=
    match accessors.firstAccessor with
    | some fa => Node.decoratorsOf fa
    | none => []
  if decorators.isEmpty then
    match accessors.secondAccessor with
    | some sa => Node.decoratorsOf sa
    | none => decorators
  else decorators

/-- The statements `transformClassDeclaration` writes before the decorator
groups: the class statement itself and the static property initializers. -/
def classOutputHead (L : Lowerer) (ctx : Ctx) (node : Node) (s : TransformState) : List Node :=
  let baseTypeNode := visitAndGetClassExtendsHeritageClauseElement L node
  let constructorAndState := transformConstructorRun L node baseTypeNode s
  let constructor := constructorAndState.1
  let classMembers :=
    (match constructor with
     | some c => [c]
     | none => []) ++ List.flatten ((Node.membersOf node).map L.many)
  let classStmt :=
    if nodeIsDecorated node then
      let classExprNode := createClassExpression3 baseTypeNode classMembers
      createSimpleLetStatement (getDeclarationName node) classExprNode
        (isTopLevelNonDefaultExport ctx node)
    else
      let exportFlags :=
        if isNamespaceLevelExport ctx node then 0
        else (Node.flagsOf node) &&& (NodeFlags.Export ||| NodeFlags.Default)
      createClassDeclaration2 (getDeclarationName node) baseTypeNode classMembers exportFlags
  [classStmt] ++
    transformPropertyDeclarationsToStatements L node (getInitializedProperties node true)

/-- The statements `transformClassDeclaration` writes after the decorator
groups: the namespace-export assignment or the decorated default-export
re-statement. -/
def classOutputTail (ctx : Ctx) (node : Node) : List Node :=
  if isNamespaceLevelExport ctx node then
    [Node.exprStmt 0
      (createAssignmentExpression (getModuleMemberName ctx node) (getDeclarationName node))]
  else if isTopLevelDefaultExport ctx node && nodeIsDecorated node then
    [createExportDefaultStatement (getDeclarationName node)]
  else []

/-- The argument of the immediately-invoked wrapper call among a list of
emitted statements: the first argument of the first expression statement
that calls a parenthesized function expression. -/
def wrapperCallArgument (stmts : List Node) : Option Node :=
  stmts.findSome? fun stmt =>
    match stmt with
    | .exprStmt _ (.callExpr (.parenExpr (.funcExpr _ _)) args) => args.head?
    | _ => none

/-- Recognizes the bare use-existing-or-initialize-empty expression
`m || (m = {})`. -/
def isUseExistingOrInitStorageExpr : Node → Bool
  | .binaryExpr .barBar m1 (.binaryExpr .assign m2 (.objectLit [])) => Node.beq m1 m2
  | _ => false

/-- The decorator-expression array of a direct `__decorate(...)` call. -/
def decorateArrayOfCall : Node → Option (List Node)
  | .callExpr (.ident d) args =>
      if d == "__decorate" then
        match args with
        | .arrayLit ds :: _ => some ds
        | _ => none
      else none
  | _ => none

/-- The decorator-expression array of the first `__decorate` call found in a
statement list, whether the call stands alone (property members) or sits as
the last argument of an `Object.defineProperty` call (methods and
accessors). -/
def memberDecorateCallDecorators (stmts : List Node) : Option (List Node) :=
  stmts.findSome? fun stmt =>
    match stmt with
    | .exprStmt _ e =>
        match decorateArrayOfCall e with
        | some ds => some ds
        | none =>
            match e with
            | .callExpr _ args =>
                match args.getLast? with
                | some inner => decorateArrayOfCall inner
                | none => none
            | _ => none
    | _ => none

/-- Recognizes a parenthesized expression node. -/
def isParenthesizedNode : Node → Bool
  | .parenExpr _ => true
  | _ => false

/-- Recognizes a variable statement node. -/
def isVariableStatementNode : Node → Bool
  | .varStmt _ _ => true
  | _ => false

/-- The base-type node `B` of the spec's class scenario. -/
def baseB : Node := Node.exprWithTypeArgs (Node.ident "B") false

/-- The property-declaring parameter `public y` of the scenario. -/
def paramY : Node := Node.paramDecl NodeFlags.Public [] (Node.ident "y") none false

/-- The scenario constructor `constructor(public y) { super(); foo(); }`. -/
def scenarioCtor : Node :=
  Node.ctorDecl [paramY]
    (some (Node.blockStmt
      [Node.exprStmt 0 (Node.callExpr Node.superKw []),
       Node.exprStmt 0 (Node.callExpr (Node.ident "foo") [])]))

/-- The instance field `x = 1` of the scenario. -/
def propX : Node := Node.propertyDecl 0 [] (Node.ident "x") (some (Node.numLit 1))

/-- The spec scenario class
`class C extends B { x = 1; constructor(public y) { super(); foo(); } }`. -/
def scenarioClass : Node :=
  Node.classDecl 0 [] (Node.ident "C") [Node.heritageClause true [baseB]]
    [propX, scenarioCtor]

/-- A class `class D extends B {}` with no members at all. -/
def classDNoMembers : Node :=
  Node.classDecl 0 [] (Node.ident "D") [Node.heritageClause true [baseB]] []

/-- A top-level context: the parent node is the source file. -/
def ctxTopLevel : Ctx :=
  { parentIsSourceFile := true
    containingModuleGeneratedName := none
    combinedNodeFlagsHasExport := false }

/-- A context inside a namespace: the parent node is not a source file. -/
def ctxInsideNamespace : Ctx :=
  { parentIsSourceFile := false
    containingModuleGeneratedName := none
    combinedNodeFlagsHasExport := false }

/-- All compiler options off. -/
def optsPlain : CompilerOpts :=
  { preserveConstEnums := false
    isolatedModules := false
    emitDecoratorMetadata := false }

/-- An exported namespace `export module M {}` nested inside another
namespace, reported instantiated by the Resolver. -/
def moduleMExported : Node :=
  Node.moduleDecl NodeFlags.Export (Node.ident "M") (Node.moduleBlock []) true false

/-- The enum member `A` whose value the Resolver resolves to the constant
`0`. -/
def enumMemberA : Node := Node.enumMember (Node.ident "A") none (some 0)

/-- A scope context in which the current enum local name is the generated
identifier `E_1`. -/
def stateWithEnumLocal : TransformState :=
  { TransformState.initial with currentEnumLocalName := some (Node.ident "E_1") }

/-- A get accessor `get a()` decorated with `@d1`. -/
def getAccessorA : Node :=
  Node.getAccessorDecl 0 [Node.decoratorNode (Node.ident "d1")] (Node.ident "a") []
    (some (Node.blockStmt []))

/-- A set accessor `set a(v)` decorated with `@d2`, declared after the get
accessor. -/
def setAccessorA : Node :=
  Node.setAccessorDecl 0 [Node.decoratorNode (Node.ident "d2")] (Node.ident "a")
    [Node.paramDecl 0 [] (Node.ident "v") none false]
    (some (Node.blockStmt []))

/-- A class whose members are the decorated accessor pair. -/
def classWithAccessorPair : Node :=
  Node.classDecl 0 [] (Node.ident "K") [] [getAccessorA, setAccessorA]

/-- An exported variable statement `export var x = f();` as it appears as a
namespace member. -/
def exportedVarStmt : Node :=
  Node.varStmt NodeFlags.Export
    [Node.varDecl (Node.ident "x") (some (Node.callExpr (Node.ident "f") [])) 0]

mutual

/-- `Node.beq` is reflexive. -/
theorem Node.beq_refl : ∀ a : Node, Node.beq a a = true
  | .ident _ => by simp [Node.beq]
  | .strLit _ => by simp [Node.beq]
  | .numLit _ => by simp [Node.beq]
  | .thisKw => rfl
  | .superKw => rfl
  | .voidZeroExpr => rfl
  | .objectLit a => by simp [Node.beq, Node.beqList_refl a]
  | .arrayLit a => by simp [Node.beq, Node.beqList_refl a]
  | .propAccess a b => by simp [Node.beq, Node.beq_refl a, Node.beq_refl b]
  | .elemAccess a b => by simp [Node.beq, Node.beq_refl a, Node.beq_refl b]
  | .binaryExpr _ a b => by simp [Node.beq, Node.beq_refl a, Node.beq_refl b]
  | .conditionalExpr a b c => by
      simp [Node.beq, Node.beq_refl a, Node.beq_refl b, Node.beq_refl c]
  | .callExpr a as => by simp [Node.beq, Node.beq_refl a, Node.beqList_refl as]
  | .spreadElem a => by simp [Node.beq, Node.beq_refl a]
  | .parenExpr a => by simp [Node.beq, Node.beq_refl a]
  | .yieldExpr a => by simp [Node.beq, Node.beq_refl a]
  | .awaitExpr a => by simp [Node.beq, Node.beq_refl a]
  | .funcExpr as a => by simp [Node.beq, Node.beqList_refl as, Node.beq_refl a]
  | .arrowFunc as a => by simp [Node.beq, Node.beqList_refl as, Node.beq_refl a]
  | .classExpr a as => by simp [Node.beq, Node.beqOpt_refl a, Node.beqList_refl as]
  | .exprStmt _ a => by simp [Node.beq, Node.beq_refl a]
  | .blockStmt as => by simp [Node.beq, Node.beqList_refl as]
  | .varStmt _ as => by simp [Node.beq, Node.beqList_refl as]
  | .varDecl a i _ => by simp [Node.beq, Node.beq_refl a, Node.beqOpt_refl i]
  | .classDecl _ ds a hs ms => by
      simp [Node.beq, Node.beqList_refl ds, Node.beq_refl a, Node.beqList_refl hs,
        Node.beqList_refl ms]
  | .heritageClause _ as => by simp [Node.beq, Node.beqList_refl as]
  | .exprWithTypeArgs a _ => by simp [Node.beq, Node.beq_refl a]
  | .moduleDecl _ a bd _ _ => by simp [Node.beq, Node.beq_refl a, Node.beq_refl bd]
  | .moduleBlock as => by simp [Node.beq, Node.beqList_refl as]
  | .enumDecl _ a ms => by simp [Node.beq, Node.beq_refl a, Node.beqList_refl ms]
  | .enumMember a i _ => by simp [Node.beq, Node.beq_refl a, Node.beqOpt_refl i]
  | .ctorDecl as bd => by simp [Node.beq, Node.beqList_refl as, Node.beqOpt_refl bd]
  | .methodDecl _ ds a ps bd => by
      simp [Node.beq, Node.beqList_refl ds, Node.beq_refl a, Node.beqList_refl ps,
        Node.beqOpt_refl bd]
  | .getAccessorDecl _ ds a ps bd => by
      simp [Node.beq, Node.beqList_refl ds, Node.beq_refl a, Node.beqList_refl ps,
        Node.beqOpt_refl bd]
  | .setAccessorDecl _ ds a ps bd => by
      simp [Node.beq, Node.beqList_refl ds, Node.beq_refl a, Node.beqList_refl ps,
        Node.beqOpt_refl bd]
  | .propertyDecl _ ds a i => by
      simp [Node.beq, Node.beqList_refl ds, Node.beq_refl a, Node.beqOpt_refl i]
  | .paramDecl _ ds a i _ => by
      simp [Node.beq, Node.beqList_refl ds, Node.beq_refl a, Node.beqOpt_refl i]
  | .decoratorNode a => by simp [Node.beq, Node.beq_refl a]
  | .computedName a => by simp [Node.beq, Node.beq_refl a]
  | .objectBindingPattern as => by simp [Node.beq, Node.beqList_refl as]
  | .arrayBindingPattern as => by simp [Node.beq, Node.beqList_refl as]

/-- `Node.beqList` is reflexive. -/
theorem Node.beqList_refl : ∀ l : List Node, Node.beqList l l = true
  | [] => rfl
  | x :: xs => by simp [Node.beqList, Node.beq_refl x, Node.beqList_refl xs]

/-- `Node.beqOpt` is reflexive. -/
theorem Node.beqOpt_refl : ∀ o : Option Node, Node.beqOpt o o = true
  | none => rfl
  | some x => by simp [Node.beqOpt, Node.beq_refl x]

end


/-- Claim C1: the constructor body produced by class lowering should be, in
order, the optional base call, the parameter-property assignments, the field
assignments, and the remaining user statements.  The code as written does
not produce this: `transformConstructor` saves and restores the four
scope-context variables but never assigns them, so `emitConstructorBody`
reads the stale (initially undefined) context and emits an empty body.
First conjunct: on the spec's own scenario class the emitted constructor is
`constructor(y) { }` — empty body.  Second conjunct: had the context held
the values `transformConstructor` computed (base `B`, the user constructor,
parameter `y`, field `x`), `emitConstructorBody` would emit exactly the
claimed sequence `super(); this.y = y; this.x = 1; foo();` — the ordering
logic matches the claim, the context wiring is the bug. -/
theorem c1_constructor_body_wiring_bug :
    ((transformConstructorRun Lowerer.id scenarioClass (some baseB)
        TransformState.initial).1 =
      some (Node.ctorDecl [paramY] (some (Node.blockStmt [])))) ∧
    (emitConstructorBody Lowerer.id scenarioClass
      { currentBaseTypeNode := some baseB
        currentConstructor := some scenarioCtor
        currentParametersWithPropertyAssignments := some [paramY]
        currentInstancePropertyAssignments := some [propX]
        currentEnumLocalName := none } =
      [Node.exprStmt 0 (Node.callExpr Node.superKw []),
       Node.exprStmt 0 (Node.binaryExpr .assign
         (Node.propAccess Node.thisKw (Node.ident "y")) (Node.ident "y")),
       Node.exprStmt 0 (Node.binaryExpr .assign
         (Node.propAccess Node.thisKw (Node.ident "x")) (Node.numLit 1)),
       Node.exprStmt 0 (Node.callExpr (Node.ident "foo") [])]) :=
  ⟨rfl, rfl⟩

/-- Claim C2, counterexample: for `class D extends B {}` — no user
constructor, a base class, no fields — the claim demands a synthesized
one-statement forwarding constructor, but `transformConstructor` returns no
constructor at all (its early return fires whenever there are no property
assignments, regardless of the base class), and the lowered class
declaration contains no constructor member. -/
theorem c2_counterexample :
    ((transformConstructorRun Lowerer.id classDNoMembers (some baseB)
        TransformState.initial).1 = none) ∧
    ((transformClassDeclaration Lowerer.id ctxTopLevel optsPlain classDNoMembers
        TransformState.initial).1 =
      [Node.classDecl 0 [] (Node.ident "D") [Node.heritageClause true [baseB]] []]) :=
  ⟨rfl, rfl⟩

/-- Claim C2 (amended): `transformConstructor` yields no constructor exactly
when the class has no user constructor with a body and no initialized
instance field — independently of the base class; in particular a class with
a base class but no property assignments gets no synthesized constructor. -/
theorem c2_amended_no_constructor_iff :
    ∀ (emitBody : TransformState → List Node × TransformState) (L : Lowerer)
      (node : Node) (baseTypeNode : Option Node) (s : TransformState),
      (transformConstructor emitBody L node baseTypeNode s).1 = none ↔
        (getFirstConstructorWithBody node = none ∧
          getInitializedProperties node false = none) := by
  intro emitBody L node baseTypeNode s
  cases h1 : getFirstConstructorWithBody node <;>
    cases h2 : getInitializedProperties node false <;>
      simp [transformConstructor, h1, h2]
  case some.none c =>
    cases h3 : getParametersWithPropertyAssignments c <;> simp [h1, h2, h3]

/-- Claim C10: after `transformConstructor` returns, the four scope-context
variables hold exactly their entry values, whatever the body emission did to
the context; likewise `transformEnumDeclaration` restores
`currentEnumLocalName` to its entry value, whatever the member emission did. -/
theorem c10_scope_context_restored :
    (∀ (emitBody : TransformState → List Node × TransformState) (L : Lowerer)
        (node : Node) (baseTypeNode : Option Node) (s : TransformState),
      ((transformConstructor emitBody L node baseTypeNode s).2.currentBaseTypeNode =
          s.currentBaseTypeNode) ∧
      ((transformConstructor emitBody L node baseTypeNode s).2.currentConstructor =
          s.currentConstructor) ∧
      ((transformConstructor emitBody L node baseTypeNode
          s).2.currentParametersWithPropertyAssignments =
          s.currentParametersWithPropertyAssignments) ∧
      ((transformConstructor emitBody L node baseTypeNode
          s).2.currentInstancePropertyAssignments =
          s.currentInstancePropertyAssignments)) ∧
    (∀ (emitMembers : TransformState → List Node × TransformState) (L : Lowerer)
        (ctx : Ctx) (opts : CompilerOpts) (node : Node) (s : TransformState),
      (transformEnumDeclaration emitMembers L ctx opts node s).2.currentEnumLocalName =
        s.currentEnumLocalName) := by
  constructor
  · intro emitBody L node baseTypeNode s
    by_cases h : ((getFirstConstructorWithBody node).bind
        getParametersWithPropertyAssignments).isNone &&
        (getInitializedProperties node false).isNone
    all_goals simp [transformConstructor, h]
  · intro emitMembers L ctx opts node s
    by_cases h : shouldEmitEnumDeclaration opts node
    all_goals simp [transformEnumDeclaration, h]


/-- `Option.toList` commutes with `Option.map`. -/
theorem optionToList_map (f : Node → Node) (o : Option Node) :
    (o.map f).toList = o.toList.map f := by
  cases o <;> rfl

/-- Claim C3: every emitted enum member produces the single chained
assignment statement `local[local[n] = v] = n`; the value is the Resolver's
constant when available, else the lowered initializer, else `void 0`; and
executing the statement stores the value under the name key and the name
under the value key (when the two keys differ). -/
theorem c3_enum_member_round_trip :
    ∀ (L : Lowerer) (s : TransformState) (localText : String)
      (nameNode : Node) (initializer : Option Node) (constantValue : Option Int),
      s.currentEnumLocalName = some (Node.ident localText) →
      (emitEnumMember L s (Node.enumMember nameNode initializer constantValue) =
        [Node.exprStmt 0 (Node.binaryExpr .assign
          (Node.elemAccess (Node.ident localText)
            (Node.binaryExpr .assign
              (Node.elemAccess (Node.ident localText)
                (getExpressionForPropertyName L
                  (Node.enumMember nameNode initializer constantValue)))
              (getEnumMemberDeclarationValue L
                (Node.enumMember nameNode initializer constantValue))))
          (getExpressionForPropertyName L
            (Node.enumMember nameNode initializer constantValue)))]) ∧
      (getEnumMemberDeclarationValue L (Node.enumMember nameNode initializer constantValue) =
        match constantValue, initializer with
        | some v, _ => Node.numLit v
        | none, some ini => L.one ini
        | none, none => Node.voidZeroExpr) ∧
      (∀ (n : String) (v : Int) (store : EnumStore),
        nameNode = Node.ident n →
        constantValue = some v →
        n ≠ jsNumKey v →
        ∃ store2 : EnumStore,
          execEnumMemberStmt localText
            ((emitEnumMember L s
              (Node.enumMember nameNode initializer constantValue)).headD Node.voidZeroExpr)
            store = some store2 ∧
          store2 n = some (JsVal.num v) ∧
          store2 (jsNumKey v) = some (JsVal.str n)) := by
  intro L s localText nameNode initializer constantValue hlocal
  refine ⟨?_, ?_, ?_⟩
  · simp [emitEnumMember, hlocal, createAssignmentExpression]
  · cases constantValue <;> cases initializer <;> simp [getEnumMemberDeclarationValue]
  · intro n v store hn hv hne
    subst hn
    subst hv
    have hstmt :
        (emitEnumMember L s (Node.enumMember (Node.ident n) initializer (some v))).headD
          Node.voidZeroExpr =
        Node.exprStmt 0 (Node.binaryExpr .assign
          (Node.elemAccess (Node.ident localText)
            (Node.binaryExpr .assign
              (Node.elemAccess (Node.ident localText) (Node.strLit n)) (Node.numLit v)))
          (Node.strLit n)) := by
      simp [emitEnumMember, hlocal, getExpressionForPropertyName, Node.nameOf,
        getEnumMemberDeclarationValue, createAssignmentExpression]
    rw [hstmt]
    have hbne : (n == jsNumKey v) = false := by
      simp [hne]
    refine ⟨fun k => if k == jsNumKey v then some (JsVal.str n)
        else if k == n then some (JsVal.num v) else store k, ?_, ?_, ?_⟩
    · simp [execEnumMemberStmt]
    · simp [hbne]
    · simp

/-- Witness for C3: the member `A = 0` of an enum whose local name is `E_1`,
executed on the empty store, maps `A` to `0` and `0` to `"A"`. -/
theorem c3_enum_member_round_trip_witness :
    ∃ store2 : EnumStore,
      execEnumMemberStmt "E_1"
        ((emitEnumMember Lowerer.id stateWithEnumLocal enumMemberA).headD Node.voidZeroExpr)
        (fun _ => none) = some store2 ∧
      store2 "A" = some (JsVal.num 0) ∧
      store2 "0" = some (JsVal.str "A") := by
  have h := c3_enum_member_round_trip Lowerer.id stateWithEnumLocal "E_1"
    (Node.ident "A") none (some 0) rfl
  exact h.2.2 "A" 0 (fun _ => none) rfl rfl (by decide)

/-- Claim C4: the traversal controller writes nothing for an absent node,
dispatches to the worker when the node's own transform-need flag is set,
performs the generic descent when only the subtree flag is set, and returns
the very same node when neither is set; the generic descent preserves the
node's kind and modifier flags and passes exactly the immediate children
through the visitor, in order. -/
theorem c4_traversal_controller :
    ∀ (tflags : Node → Nat) (worker acceptF : Node → List Node) (n : Node),
      (transformNode tflags worker acceptF none = []) ∧
      (((tflags n &&& TransformFlags.ThisNodeNeedsTransformToES6) != 0) = true →
        transformNode tflags worker acceptF (some n) = worker n) ∧
      (((tflags n &&& TransformFlags.ThisNodeNeedsTransformToES6) != 0) = false →
        ((tflags n &&& TransformFlags.SubtreeNeedsTransformToES6) != 0) = true →
        transformNode tflags worker acceptF (some n) = acceptF n) ∧
      (((tflags n &&& TransformFlags.ThisNodeNeedsTransformToES6) != 0) = false →
        ((tflags n &&& TransformFlags.SubtreeNeedsTransformToES6) != 0) = false →
        transformNode tflags worker acceptF (some n) = [n]) ∧
      (∀ f : Node → Node,
        nodeKindCode (acceptModel f n) = nodeKindCode n ∧
        Node.flagsOf (acceptModel f n) = Node.flagsOf n ∧
        Node.childNodes (acceptModel f n) = (Node.childNodes n).map f) := by
  intro tflags worker acceptF n
  refine ⟨rfl, ?_, ?_, ?_, ?_⟩
  · intro h
    simp [transformNode, h]
  · intro h1 h2
    simp [transformNode, h1, h2]
  · intro h1 h2
    simp [transformNode, h1, h2]
  · intro f
    refine ⟨?_, ?_, ?_⟩ <;>
      cases n <;>
        simp [acceptModel, nodeKindCode, Node.flagsOf, Node.childNodes, optionToList_map]

/-- Witness for C4: a node with no transform-need flags passes through the
controller unchanged. -/
theorem c4_traversal_controller_witness :
    transformNode (fun _ => 0) (fun _ => []) (fun _ => []) (some Node.thisKw) =
      [Node.thisKw] := by
  have h := c4_traversal_controller (fun _ => 0) (fun _ => []) (fun _ => []) Node.thisKw
  exact h.2.2.2.1 rfl rfl


/-- Claim C5: `transformClassDeclaration` emits its statements with all
instance-member decorate calls before all static-member decorate calls
before the constructor decorate call; and the constructor decorate call is
one single statement, present exactly when the class carries decorators or
some parameter of its first bodied constructor is decorated. -/
theorem c5_decorator_order_and_condition :
    ∀ (L : Lowerer) (ctx : Ctx) (opts : CompilerOpts) (node : Node) (s : TransformState),
      ((transformClassDeclaration L ctx opts node s).1 =
        classOutputHead L ctx node s ++
        transformDecoratorsOfMembers L opts node false ++
        transformDecoratorsOfMembers L opts node true ++
        transformDecoratorsOfConstructor L opts node ++
        classOutputTail ctx node) ∧
      ((transformDecoratorsOfConstructor L opts node).length =
        (if (Node.decoratorsOf node).isEmpty && !constructorHasDecoratedParameters node
          then 0 else 1)) ∧
      (transformDecoratorsOfConstructor L opts node ≠ [] ↔
        ((Node.decoratorsOf node).isEmpty = false ∨
          constructorHasDecoratedParameters node = true)) := by
  intro L ctx opts node s
  refine ⟨?_, ?_, ?_⟩
  · simp [transformClassDeclaration, classOutputHead, classOutputTail, List.append_assoc]
  · simp only [transformDecoratorsOfConstructor, constructorHasDecoratedParameters]
    split <;> simp
  · simp only [transformDecoratorsOfConstructor, constructorHasDecoratedParameters]
    split <;> rename_i h <;> simp_all
    by_cases he : Node.decoratorsOf node = []
    · exact Or.inr (h he)
    · exact Or.inl he

/-- Claim C6, counterexample: for the namespace-level export
`export module M {}` (lowered inside a namespace) the wrapper's storage
argument is not the bare use-existing-or-initialize-empty expression: it is
that expression wrapped in an assignment back onto the local binding `M`. -/
theorem c6_counterexample :
    (wrapperCallArgument
        (transformModuleDeclaration Lowerer.id ctxInsideNamespace optsPlain moduleMExported) =
      some (Node.binaryExpr .assign (Node.ident "M")
        (Node.binaryExpr .barBar (Node.ident "M")
          (Node.binaryExpr .assign (Node.ident "M") (Node.objectLit []))))) ∧
    (isUseExistingOrInitStorageExpr
        (Node.binaryExpr .assign (Node.ident "M")
          (Node.binaryExpr .barBar (Node.ident "M")
            (Node.binaryExpr .assign (Node.ident "M") (Node.objectLit [])))) = false) :=
  ⟨rfl, rfl⟩

/-- Claim C6 (amended): for every emitted namespace and enum the wrapper's
storage argument embeds the use-existing-or-initialize-empty expression
`member || (member = {})`: enums and non-namespace-export namespaces pass it
bare, a namespace-level-export namespace passes it wrapped in an assignment
back onto its local name; and evaluating the reuse expression when the
binding already holds a truthy value returns that very value with the
environment untouched — never an unconditional overwrite, so a second
same-named sibling reuses the first's storage object. -/
theorem c6_amended_storage_argument :
    (∀ (L : Lowerer) (ctx : Ctx) (opts : CompilerOpts) (flags : Nat)
        (name body : Node) (inst merges : Bool),
      shouldEmitModuleDeclaration opts (Node.moduleDecl flags name body inst merges) = true →
      wrapperCallArgument
          (transformModuleDeclaration L ctx opts
            (Node.moduleDecl flags name body inst merges)) =
        some (if isNamespaceLevelExport ctx (Node.moduleDecl flags name body inst merges) then
          createAssignmentExpression (cloneNode name)
            (createLogicalOrExpression
              (getModuleMemberName ctx (Node.moduleDecl flags name body inst merges))
              (createAssignmentExpression
                (getModuleMemberName ctx (Node.moduleDecl flags name body inst merges))
                (Node.objectLit [])))
        else
          createLogicalOrExpression
            (getModuleMemberName ctx (Node.moduleDecl flags name body inst merges))
            (createAssignmentExpression
              (getModuleMemberName ctx (Node.moduleDecl flags name body inst merges))
              (Node.objectLit [])))) ∧
    (∀ (L : Lowerer) (ctx : Ctx) (opts : CompilerOpts) (flags : Nat) (name : Node)
        (members : List Node) (s : TransformState),
      shouldEmitEnumDeclaration opts (Node.enumDecl flags name members) = true →
      wrapperCallArgument
          ((transformEnumDeclarationRun L ctx opts (Node.enumDecl flags name members) s).1) =
        some (createLogicalOrExpression
          (getModuleMemberName ctx (Node.enumDecl flags name members))
          (createAssignmentExpression
            (getModuleMemberName ctx (Node.enumDecl flags name members))
            (Node.objectLit [])))) ∧
    (∀ member : Node,
      isUseExistingOrInitStorageExpr
        (createLogicalOrExpression member
          (createAssignmentExpression member (Node.objectLit []))) = true) ∧
    (∀ (nm : String) (env : String → JsVal) (freshId : Nat),
      truthy (env nm) = true →
      evalStorageExpr
        (createLogicalOrExpression (Node.ident nm)
          (createAssignmentExpression (Node.ident nm) (Node.objectLit []))) env freshId =
        some (env nm, env)) := by
  refine ⟨?_, ?_, ?_, ?_⟩
  · intro L ctx opts flags name body inst merges hemit
    by_cases hm : isModuleMergedWithClassFlag (Node.moduleDecl flags name body inst merges) <;>
      by_cases hx : isNamespaceLevelExport ctx (Node.moduleDecl flags name body inst merges) <;>
        simp [transformModuleDeclaration, hemit, hm, hx, wrapperCallArgument,
          createAssignmentExpression, createLogicalOrExpression]
  · intro L ctx opts flags name members s hemit
    by_cases hx : isNamespaceLevelExport ctx (Node.enumDecl flags name members) <;>
      simp [transformEnumDeclarationRun, transformEnumDeclaration, hemit, hx,
        wrapperCallArgument, createAssignmentExpression, createLogicalOrExpression]
  · intro member
    simp [isUseExistingOrInitStorageExpr, createLogicalOrExpression,
      createAssignmentExpression, Node.beq_refl]
  · intro nm env freshId htruthy
    simp [evalStorageExpr, createLogicalOrExpression, createAssignmentExpression, htruthy]

/-- Witness for C6 (amended): evaluating the reuse expression for `M` in an
environment where `M` already holds the storage object `obj 3` returns that
same object and leaves the environment unchanged. -/
theorem c6_amended_storage_argument_witness :
    evalStorageExpr
      (createLogicalOrExpression (Node.ident "M")
        (createAssignmentExpression (Node.ident "M") (Node.objectLit [])))
      (fun _ => JsVal.obj 3) 7 =
      some (JsVal.obj 3, fun _ => JsVal.obj 3) := by
  exact c6_amended_storage_argument.2.2.2 "M" (fun _ => JsVal.obj 3) 7 rfl

/-- Claim C7, counterexample: an await expression that is the LEFT operand
of a non-assignment binary operator — a position where the claim demands no
parentheses — is parenthesized by the code, whose test only inspects the
parent's operator, not which operand the await occupies. -/
theorem c7_counterexample :
    (needsParenthesisForAwaitExpressionAsYield
        (Node.binaryExpr .plus (Node.awaitExpr (Node.ident "p")) (Node.ident "b"))
        (Node.awaitExpr (Node.ident "p")) = true) ∧
    (transformAwaitExpression Lowerer.id
        (Node.binaryExpr .plus (Node.awaitExpr (Node.ident "p")) (Node.ident "b"))
        (Node.awaitExpr (Node.ident "p")) =
      Node.parenExpr (Node.yieldExpr (Node.ident "p"))) :=
  ⟨rfl, rfl⟩

/-- Claim C7 (amended): the lowered yield expression is parenthesized
exactly when the parent is a binary expression with a non-assignment
operator (either operand position) or a conditional expression whose
condition is the await node itself; in every other position it is emitted
unparenthesized. -/
theorem c7_amended_parenthesization :
    ∀ (L : Lowerer) (parentNode node : Node),
      isParenthesizedNode (transformAwaitExpression L parentNode node) = true ↔
        ((∃ op l r, parentNode = Node.binaryExpr op l r ∧ isAssignmentOperator op = false) ∨
          (∃ c t f, parentNode = Node.conditionalExpr c t f ∧ Node.beq c node = true)) := by
  intro L parentNode node
  cases parentNode <;>
    simp [transformAwaitExpression, needsParenthesisForAwaitExpressionAsYield,
      isParenthesizedNode, isBinaryExpression, isConditionalExpression]
  case binaryExpr op l r =>
    by_cases h : isAssignmentOperator op <;>
      simp [h, isParenthesizedNode]
  case conditionalExpr c t f =>
    by_cases h : Node.beq c node <;>
      simp [h, isParenthesizedNode]


/-- Claim C8, counterexample: in a pair `get a` decorated with `@d1` and
`set a` decorated with `@d2`, the single emitted decorate call carries only
`d1` — the first accessor's decorators, not the union — and processing the
second accessor emits nothing. -/
theorem c8_counterexample :
    (memberDecorateCallDecorators
        (transformDecoratorsOfMembers Lowerer.id optsPlain classWithAccessorPair false) =
      some [Node.ident "d1"]) ∧
    (transformDecoratorsOfMember Lowerer.id optsPlain classWithAccessorPair setAccessorA =
      []) ∧
    ((Node.ident "d2") ∉ [Node.ident "d1"]) := by
  refine ⟨rfl, rfl, ?_⟩
  simp [Node.ident.injEq]

/-- Claim C8 (amended): for a bodied accessor member, no decorate call is
emitted unless the member is the pair's first-declared accessor; when it is,
exactly one defineProperty-wrapped decorate statement is emitted, whose
decorator list is the first accessor's decorators — or the second
accessor's when the first has none (a first-nonempty choice, not a union) —
followed by parameter-decorator calls drawn only from the set accessor's
parameters, and the metadata calls when enabled. -/
theorem c8_amended_accessor_pair :
    ∀ (L : Lowerer) (opts : CompilerOpts) (node member : Node),
      isAccessor member = true →
      (Node.bodyOf member).isSome = true →
      ((Node.beqOpt (some member)
          (getAllAccessorDeclarations (Node.membersOf node) member).firstAccessor = false →
        transformDecoratorsOfMember L opts node member = []) ∧
       (Node.beqOpt (some member)
          (getAllAccessorDeclarations (Node.membersOf node) member).firstAccessor = true →
        transformDecoratorsOfMember L opts node member =
          [Node.exprStmt 0 (createDefinePropertyCall
            (getClassMemberPrefixExpr node member)
            (getExpressionForPropertyName L member)
            (createDecorateHelperCall
              ((accessorPairDecorators
                  (getAllAccessorDeclarations (Node.membersOf node) member)).map
                    (fun d => L.one (Node.decoratorExpressionOf d)) ++
                (match (getAllAccessorDeclarations (Node.membersOf node) member).setAccessor with
                 | some sa => appendDecoratorsOfParameters L (Node.paramsOf sa)
                 | none => []) ++
                (if opts.emitDecoratorMetadata then appendSerializedTypeMetadata L node
                 else []))
              (getClassMemberPrefixExpr node member)
              (some (getExpressionForPropertyName L member))
              (some (createGetOwnPropertyDescriptorCall
                (getClassMemberPrefixExpr node member)
                (getExpressionForPropertyName L member)))))])) := by
  intro L opts node member ha hb
  constructor
  · intro hfirst
    simp [transformDecoratorsOfMember, ha, hb, hfirst]
  · intro hfirst
    have hprop : isPropertyDeclaration member = false := by
      cases member <;> simp_all [isAccessor, isPropertyDeclaration]
    simp [transformDecoratorsOfMember, ha, hb, hfirst, hprop, accessorPairDecorators,
      List.append_assoc]
    cases hset : (getAllAccessorDeclarations (Node.membersOf node) member).setAccessor <;>
      simp [hset, Option.map]

/-- Witness for C8 (amended): at the decorated pair fixture, processing the
first accessor emits the single defineProperty statement whose decorator
array is just the lowered `d1`. -/
theorem c8_amended_accessor_pair_witness :
    transformDecoratorsOfMember Lowerer.id optsPlain classWithAccessorPair getAccessorA =
      [Node.exprStmt 0 (createDefinePropertyCall
        (Node.propAccess (Node.ident "K") (Node.ident "prototype"))
        (Node.strLit "a")
        (createDecorateHelperCall [Node.ident "d1"]
          (Node.propAccess (Node.ident "K") (Node.ident "prototype"))
          (some (Node.strLit "a"))
          (some (createGetOwnPropertyDescriptorCall
            (Node.propAccess (Node.ident "K") (Node.ident "prototype"))
            (Node.strLit "a")))))] := by
  have h := (c8_amended_accessor_pair Lowerer.id optsPlain classWithAccessorPair
    getAccessorA rfl rfl).2 rfl
  exact h.trans rfl

/-- Claim C9, counterexample: the exported variable statement
`export var x = f();` is not converted into a member assignment: the
lowering returns the variable statement rebuilt by the generic descent,
which differs from the assignment statement the (never invoked) conversion
helper would produce. -/
theorem c9_counterexample :
    (transformVariableStatement (fun n => [acceptModel (fun c => c) n]) exportedVarStmt =
      [exportedVarStmt]) ∧
    (isVariableStatementNode exportedVarStmt = true) ∧
    (transformVariableDeclarationListToExpressionStatement Lowerer.id ctxTopLevel
        [Node.varDecl (Node.ident "x") (some (Node.callExpr (Node.ident "f") [])) 0] =
      Except.ok [Node.exprStmt 0 (Node.binaryExpr .assign (Node.ident "x")
        (Node.callExpr (Node.ident "f") []))]) ∧
    ([exportedVarStmt] ≠
      [Node.exprStmt 0 (Node.binaryExpr .assign (Node.ident "x")
        (Node.callExpr (Node.ident "f") []))]) := by
  refine ⟨rfl, rfl, rfl, ?_⟩
  simp [exportedVarStmt]

/-- Claim C9 (amended): variable statements — namespace-exported or not —
receive no special handling: `transformVariableStatement` is exactly the
generic descent.  The conversion helpers are unreachable from it, and the
binding-pattern helpers abort with "not implemented" whenever invoked, so a
destructuring namespace-export target could only fail loudly, never
silently miscompile. -/
theorem c9_amended_variable_statements :
    (∀ (acceptF : Node → List Node) (node : Node),
      transformVariableStatement acceptF node = acceptF node) ∧
    (∀ node : Node,
      transformObjectBindingPatternToExpression node = Except.error "not implemented") ∧
    (∀ node : Node,
      transformArrayBindingPatternToExpression node = Except.error "not implemented") ∧
    (∀ (L : Lowerer) (ctx : Ctx) (flags : Nat) (els : List Node) (ini : Node),
      transformVariableDeclarationToExpression L ctx
        (Node.varDecl (Node.objectBindingPattern els) (some ini) flags) =
      Except.error "not implemented") := by
  refine ⟨fun _ _ => rfl, fun _ => rfl, fun _ => rfl, fun L ctx flags els ini => rfl⟩

end TS
